import Mathlib

/-!
DataLineage — verification of the commit/version engine, preprocessing
pipeline and diff engine.

Shallow embedding of the repository sources (`src/hasher.py`, `src/repo.py`,
`src/preprocess.py`, `src/commit_service.py`, `src/diff_service.py`,
`app.py`).  Machine-level Python behaviour (UTF-8 encoding, SHA-256,
`str.strip`, regular expressions used by the pipeline) is embedded as
executable Lean functions; pandas dataframes are embedded as a header of
named, dtyped columns plus index-carrying rows.
-/

/-! ## Python string primitives -/

/-- The whitespace characters recognised by Python's `str.strip` and the
regex class `\s` (ASCII range, as exercised by this code base). -/
def isPySpace (c : Char) : Bool :=
  c = ' ' || c = '\t' || c = '\n' || c = '\r' || c = '\x0b' || c = '\x0c'

/-- `str.strip` on a character list: drop whitespace from both ends. -/
def trimChars (l : List Char) : List Char :=
  ((l.dropWhile isPySpace).reverse.dropWhile isPySpace).reverse

/-- Python `str.strip`. -/
def pyStrip (s : String) : String :=
  (trimChars s.data).asString

/-- Python `str.lower` (ASCII case mapping, which is all this repository
feeds it). -/
def pyLower (s : String) : String :=
  (s.data.map Char.toLower).asString

/-- Split a character list on a separator character. -/
def splitOnChar (sep : Char) : List Char → List (List Char)
  | [] => [[]]
  | c :: rest =>
      match splitOnChar sep rest with
      | [] => if c = sep then [[], []] else [[c]]
      | hd :: tl => if c = sep then [] :: hd :: tl else (c :: hd) :: tl

/-- UTF-8 encoding of a string as a list of byte values (`str.encode`). -/
def utf8Char (c : Char) : List Nat :=
  let n := c.toNat
  if n < 0x80 then [n]
  else if n < 0x800 then [0xC0 + n / 64, 0x80 + n % 64]
  else if n < 0x10000 then [0xE0 + n / 4096, 0x80 + n / 64 % 64, 0x80 + n % 64]
  else [0xF0 + n / 262144, 0x80 + n / 4096 % 64, 0x80 + n / 64 % 64, 0x80 + n % 64]

/-- UTF-8 encoding of a string (`str.encode("utf-8")`). -/
def utf8Encode (s : String) : List Nat :=
  s.data.flatMap utf8Char

/-! ## SHA-256 (`hashlib.sha256`, as called by `src/hasher.py`)

A byte-level implementation over `Nat` with explicit `% 2^32` reductions. -/

def w32 (n : Nat) : Nat := n % 4294967296

def rotr32 (k x : Nat) : Nat :=
  w32 ((x >>> k) ||| (x <<< (32 - k)))

def shaCh (x y z : Nat) : Nat := (x &&& y) ^^^ ((x ^^^ 4294967295) &&& z)

def shaMaj (x y z : Nat) : Nat := (x &&& y) ^^^ (x &&& z) ^^^ (y &&& z)

def bigSigma0 (x : Nat) : Nat := rotr32 2 x ^^^ rotr32 13 x ^^^ rotr32 22 x

def bigSigma1 (x : Nat) : Nat := rotr32 6 x ^^^ rotr32 11 x ^^^ rotr32 25 x

def smallSigma0 (x : Nat) : Nat := rotr32 7 x ^^^ rotr32 18 x ^^^ (x >>> 3)

def smallSigma1 (x : Nat) : Nat := rotr32 17 x ^^^ rotr32 19 x ^^^ (x >>> 10)

def shaK : List Nat :=
  [1116352408, 1899447441, 3049323471, 3921009573, 961987163,
   1508970993, 2453635748, 2870763221, 3624381080, 310598401,
   607225278, 1426881987, 1925078388, 2162078206, 2614888103,
   3248222580, 3835390401, 4022224774, 264347078, 604807628,
   770255983, 1249150122, 1555081692, 1996064986, 2554220882,
   2821834349, 2952996808, 3210313671, 3336571891, 3584528711,
   113926993, 338241895, 666307205, 773529912, 1294757372,
   1396182291, 1695183700, 1986661051, 2177026350, 2456956037,
   2730485921, 2820302411, 3259730800, 3345764771, 3516065817,
   3600352804, 4094571909, 275423344, 430227734, 506948616,
   659060556, 883997877, 958139571, 1322822218, 1537002063,
   1747873779, 1955562222, 2024104815, 2227730452, 2361852424,
   2428436474, 2756734187, 3204031479, 3329325298]

/-- Hash state (eight 32-bit words). -/
structure Sha8 where
  a : Nat
  b : Nat
  c : Nat
  d : Nat
  e : Nat
  f : Nat
  g : Nat
  h : Nat
deriving Repr, DecidableEq

def shaInit : Sha8 :=
  ⟨1779033703, 3144134277, 1013904242, 2773480762,
   1359893119, 2600822924, 528734635, 1541459225⟩

/-- SHA-256 padding: append `0x80`, zero bytes to 56 mod 64, then the
bit length as 8 big-endian bytes. -/
def shaPad (msg : List Nat) : List Nat :=
  let len := msg.length
  let bitLen := len * 8
  let zeros := (64 - (len + 9) % 64) % 64
  msg ++ [0x80] ++ List.replicate zeros 0 ++
    [bitLen / 2^56 % 256, bitLen / 2^48 % 256, bitLen / 2^40 % 256,
     bitLen / 2^32 % 256, bitLen / 2^24 % 256, bitLen / 2^16 % 256,
     bitLen / 2^8 % 256, bitLen % 256]

/-- Split the padded message into 64-byte blocks (fuel-driven so that the
kernel can evaluate it; the fuel bound is the block count). -/
def shaBlocksFuel : Nat → List Nat → List (List Nat)
  | 0, _ => []
  | _ + 1, [] => []
  | fuel + 1, l => l.take 64 :: shaBlocksFuel fuel (l.drop 64)

/-- Split the padded message into 64-byte blocks. -/
def shaBlocks (l : List Nat) : List (List Nat) :=
  shaBlocksFuel (l.length / 64 + 1) l

/-- The 16 initial 32-bit message words of one 64-byte block. -/
def blockWords (block : List Nat) : List Nat :=
  (List.range 16).map fun i =>
    block.getD (4 * i) 0 * 2^24 + block.getD (4 * i + 1) 0 * 2^16 +
    block.getD (4 * i + 2) 0 * 2^8 + block.getD (4 * i + 3) 0

/-- Extend the 16 message-schedule words to 64 by 48 extension steps. -/
def extendWords (ws : List Nat) : List Nat :=
  (List.range 48).foldl
    (fun acc _ =>
      acc ++ [w32 (smallSigma1 (acc.getD (acc.length - 2) 0) +
        acc.getD (acc.length - 7) 0 + smallSigma0 (acc.getD (acc.length - 15) 0) +
        acc.getD (acc.length - 16) 0)])
    ws

/-- One compression round. -/
def shaRound (st : Sha8) (kw : Nat × Nat) : Sha8 :=
  let t1 := w32 (st.h + bigSigma1 st.e + shaCh st.e st.f st.g + kw.1 + kw.2)
  let t2 := w32 (bigSigma0 st.a + shaMaj st.a st.b st.c)
  ⟨w32 (t1 + t2), st.a, st.b, st.c, w32 (st.d + t1), st.e, st.f, st.g⟩

/-- Process one block. -/
def shaCompress (st : Sha8) (block : List Nat) : Sha8 :=
  let ws := extendWords (blockWords block)
  let r := (shaK.zip ws).foldl shaRound st
  ⟨w32 (st.a + r.a), w32 (st.b + r.b), w32 (st.c + r.c), w32 (st.d + r.d),
   w32 (st.e + r.e), w32 (st.f + r.f), w32 (st.g + r.g), w32 (st.h + r.h)⟩

def word32Bytes (x : Nat) : List Nat :=
  [x / 2^24 % 256, x / 2^16 % 256, x / 2^8 % 256, x % 256]

/-- SHA-256 digest of a byte list, as 32 bytes. -/
def sha256Bytes (msg : List Nat) : List Nat :=
  let st := (shaBlocks (shaPad msg)).foldl shaCompress shaInit
  word32Bytes st.a ++ word32Bytes st.b ++ word32Bytes st.c ++ word32Bytes st.d ++
  word32Bytes st.e ++ word32Bytes st.f ++ word32Bytes st.g ++ word32Bytes st.h

def hexDigits : List Char :=
  (List.range 10).map (fun n => Char.ofNat (48 + n)) ++
    (List.range 6).map (fun n => Char.ofNat (97 + n))

def nibbleChar (n : Nat) : Char := hexDigits.getD (n % 16) '0'

def byteHexChars (b : Nat) : List Char := [nibbleChar (b / 16), nibbleChar b]

/-- Lowercase hex rendering of a byte list (`hashlib...hexdigest()`). -/
def bytesToHex (bs : List Nat) : String :=
  (bs.flatMap byteHexChars).asString

/-- `src/hasher.py` `sha256_from_bytes`. -/
def sha256FromBytes (payload : List Nat) : String :=
  bytesToHex (sha256Bytes payload)

set_option maxRecDepth 100000 in
example : sha256FromBytes [] =
    "e3b0c44298fc1c149afbf4c8996fb92427ae41e4649b934ca495991b7852b855" := by
  decide

set_option maxRecDepth 100000 in
example : sha256FromBytes (utf8Encode "abc") =
    "ba7816bf8f01cfea414140de5dae2223b00361a396177a9cb410ff61f20015ad" := by
  decide

/-! ## JSON values (`json` module as used by the repository)

Log events, configurations and metadata are Python/JSON values.  Floats do
not occur in any configuration or event this repository writes, so JSON
numbers are embedded as integers. -/

mutual
inductive Json where
  | jnull
  | jbool (b : Bool)
  | jint (n : Int)
  | jstr (s : String)
  | jarr (l : JsonList)
  | jobj (m : JsonObj)
inductive JsonList where
  | nil
  | cons (hd : Json) (tl : JsonList)
inductive JsonObj where
  | nil
  | cons (key : String) (val : Json) (tl : JsonObj)
end

def jsonListToList : JsonList → List Json
  | .nil => []
  | .cons hd tl => hd :: jsonListToList tl

def jsonObjToList : JsonObj → List (String × Json)
  | .nil => []
  | .cons k v tl => (k, v) :: jsonObjToList tl

def jsonObjOfList : List (String × Json) → JsonObj
  | [] => .nil
  | (k, v) :: tl => .cons k v (jsonObjOfList tl)

mutual
/-- Structural depth of a JSON value, used as recursion fuel below. -/
def jdepth : Json → Nat
  | .jnull => 1
  | .jbool _ => 1
  | .jint _ => 1
  | .jstr _ => 1
  | .jarr l => 1 + jlistDepth l
  | .jobj m => 1 + jobjDepth m
def jlistDepth : JsonList → Nat
  | .nil => 0
  | .cons hd tl => max (jdepth hd) (jlistDepth tl)
def jobjDepth : JsonObj → Nat
  | .nil => 0
  | .cons _ v tl => max (jdepth v) (jobjDepth tl)
end

/-- Python truthiness `bool(value)` for JSON-shaped values. -/
def truthy : Json → Bool
  | .jnull => false
  | .jbool b => b
  | .jint n => n != 0
  | .jstr s => s != ""
  | .jarr .nil => false
  | .jarr (.cons _ _) => true
  | .jobj .nil => false
  | .jobj (.cons _ _ _) => true

/-- Python `repr` for JSON-shaped values, fuel-driven (the fuel bound is the
term depth; only scalar cases are ever reached by this repository). -/
def pyReprFuel : Nat → Json → String
  | 0, _ => ""
  | _ + 1, .jnull => "None"
  | _ + 1, .jbool true => "True"
  | _ + 1, .jbool false => "False"
  | _ + 1, .jint n => toString n
  | _ + 1, .jstr s => "\x27" ++ s ++ "\x27"
  | fuel + 1, .jarr l =>
      "[" ++ String.intercalate ", " ((jsonListToList l).map (pyReprFuel fuel)) ++ "]"
  | fuel + 1, .jobj m =>
      "\x7b" ++
        String.intercalate ", "
          ((jsonObjToList m).map fun kv =>
            "\x27" ++ kv.1 ++ "\x27: " ++ pyReprFuel fuel kv.2) ++
      "\x7d"

/-- Python `str(value)` for JSON-shaped values. -/
def pyStr (j : Json) : String :=
  match j with
  | .jnull => "None"
  | .jbool true => "True"
  | .jbool false => "False"
  | .jint n => toString n
  | .jstr s => s
  | .jarr _ => pyReprFuel (jdepth j) j
  | .jobj _ => pyReprFuel (jdepth j) j

/-- Python string comparison `a <= b`: lexicographic by code point. -/
def charsLe : List Char → List Char → Bool
  | [], _ => true
  | _ :: _, [] => false
  | a :: as, b :: bs => a.toNat < b.toNat || (a.toNat = b.toNat && charsLe as bs)

/-- Python `a <= b` on strings. -/
def pyStrLe (a b : String) : Bool := charsLe a.data b.data

/-- JSON string escaping as performed by `json.dumps(..., ensure_ascii=False)`. -/
def jsonEscapeChar (c : Char) : List Char :=
  if c = '"' then ['\\', '"']
  else if c = '\\' then ['\\', '\\']
  else if c = '\n' then ['\\', 'n']
  else if c = '\t' then ['\\', 't']
  else if c = '\r' then ['\\', 'r']
  else if c = '\x08' then ['\\', 'b']
  else if c = '\x0c' then ['\\', 'f']
  else if c.toNat < 0x20 then
    ['\\', 'u', '0', '0', nibbleChar (c.toNat / 16), nibbleChar c.toNat]
  else [c]

def jsonQuote (s : String) : String :=
  "\"" ++ (s.data.flatMap jsonEscapeChar).asString ++ "\""

/-- `json.dumps(data, sort_keys=True, ensure_ascii=False, separators=(",", ":"))`,
fuel-driven (the fuel bound is the term depth). -/
def jdumpFuel : Nat → Json → String
  | 0, _ => ""
  | _ + 1, .jnull => "null"
  | _ + 1, .jbool true => "true"
  | _ + 1, .jbool false => "false"
  | _ + 1, .jint n => toString n
  | _ + 1, .jstr s => jsonQuote s
  | fuel + 1, .jarr l =>
      "[" ++ String.intercalate "," ((jsonListToList l).map (jdumpFuel fuel)) ++ "]"
  | fuel + 1, .jobj m =>
      "\x7b" ++
        String.intercalate ","
          (((jsonObjToList m).mergeSort (fun a b => pyStrLe a.1 b.1)).map
            fun kv => jsonQuote kv.1 ++ ":" ++ jdumpFuel fuel kv.2) ++
      "\x7d"

/-- Canonical JSON serialization (`src/hasher.py` `sha256_from_json` body). -/
def jdumpCanonical (j : Json) : String := jdumpFuel (jdepth j) j

/-- A configuration is a JSON object: an ordered key/value list where a later
binding overrides an earlier one (Python dict update semantics). -/
abbrev Config := List (String × Json)

/-- Dict lookup: the last binding for a key wins. -/
def cfgGet (c : Config) (k : String) : Option Json :=
  c.reverse.lookup k

def cfgGetD (c : Config) (k : String) (d : Json) : Json :=
  (cfgGet c k).getD d

/-- `src/hasher.py` `sha256_from_json`. -/
def sha256FromJson (data : Config) : String :=
  sha256FromBytes (utf8Encode (jdumpCanonical (.jobj (jsonObjOfList data))))

/-! ## Tables (pandas dataframes as used by this repository)

A dataframe is a header of named, dtyped columns plus rows; each row keeps
its pandas index label.  Scalars are embedded as `Cell`: `na` models every
missing value (`NaN` / `pd.NA`), numbers are exact rationals (the pipeline
only ever creates numbers from decimal literals). -/

inductive Cell where
  | na
  | text (s : String)
  | num (q : Rat)
  | boolc (b : Bool)
deriving Repr, DecidableEq

inductive DType where
  | obj
  | numT
  | boolT
deriving Repr, DecidableEq

structure DataFrame where
  header : List (String × DType)
  rows : List (Nat × List Cell)
deriving Repr, DecidableEq

def colNames (df : DataFrame) : List String := df.header.map (·.1)

def isNACell : Cell → Bool
  | .na => true
  | _ => false

/-- Decimal rendering of a rational whose reduced denominator divides a
power of ten — the only numbers the pipeline produces (`pd.to_numeric` on
strings matching an integer-or-decimal pattern, and configured fill
literals). -/
def ratPyStr (q : Rat) : String :=
  if q.den = 1 then toString q.num
  else
    match (List.range 40).find? (fun k => 10 ^ k % q.den = 0) with
    | some k =>
        let scaled := (q.num.natAbs * (10 ^ k / q.den))
        let intPart := scaled / 10 ^ k
        let fracPart := scaled % 10 ^ k
        let fracStr := toString fracPart
        let fracPadded :=
          (List.replicate (k - fracStr.length) '0').asString ++ fracStr
        (if q.num < 0 then "-" else "") ++ toString intPart ++ "." ++ fracPadded
    | none => toString q.num ++ "/" ++ toString q.den

/-- Python `str(value)` for a scalar cell as the pipeline applies it
(`astype(str)` on object columns and `str(value)` on non-null values);
`NaN` renders as `"nan"`, the `np.nan` rendering.  The label-distribution
theorems do not fix a renderer — `str()` there depends on the runtime
dtype and NA flavor, which the `Cell` embedding does not carry — so this
function serves those theorems only as one concrete sample renderer in
witnesses and counterexamples (the object-dtype, `np.nan` case). -/
def cellPyStr : Cell → String
  | .na => "nan"
  | .text s => s
  | .num q => ratPyStr q
  | .boolc true => "True"
  | .boolc false => "False"

/-! ## Canonical CSV bytes (`src/hasher.py` `dataframe_to_stable_csv_bytes`)

`DataFrame.to_csv(index=False, lineterminator="\n")`: UTF-8 text, header
row first, one row per line, a fixed `"\n"` terminator after every line,
minimal CSV quoting, `NaN` as the empty field. -/

def csvEscape (s : String) : String :=
  if s.data.any (fun c => c = ',' ∨ c = '"' ∨ c = '\n' ∨ c = '\r') then
    "\"" ++ (s.data.flatMap (fun c => if c = '"' then ['"', '"'] else [c])).asString ++ "\""
  else s

def cellCsv : Cell → String
  | .na => ""
  | .text s => csvEscape s
  | .num q => ratPyStr q
  | .boolc true => "True"
  | .boolc false => "False"

def csvLine (fields : List String) : String :=
  String.intercalate "," fields ++ "\n"

def dataframeToStableCsvText (df : DataFrame) : String :=
  csvLine (df.header.map (fun nd => csvEscape nd.1)) ++
    String.join (df.rows.map (fun r => csvLine (r.2.map cellCsv)))

/-- `src/hasher.py` `dataframe_to_stable_csv_bytes`. -/
def dataframeToStableCsvBytes (df : DataFrame) : List Nat :=
  utf8Encode (dataframeToStableCsvText df)

/-! ## Preprocessing pipeline (`src/preprocess.py`) -/

/-- `get_default_preprocess_config`. -/
def getDefaultPreprocessConfig : Config :=
  [("drop_nulls", .jbool true),
   ("drop_duplicates", .jbool true),
   ("cleanup_text", .jbool true),
   ("strip_text", .jbool true),
   ("lowercase_text", .jbool true),
   ("remove_punctuation", .jbool true),
   ("collapse_spaces", .jbool true),
   ("normalize_unicode", .jbool true),
   ("remove_urls", .jbool false),
   ("coerce_numeric_columns", .jbool true),
   ("null_strategy", .jstr "drop_any"),
   ("null_fill_text", .jstr ""),
   ("null_fill_numeric", .jint 0),
   ("sort_rows", .jbool true)]

/-- `{**get_default_preprocess_config(), **(config or {})}`: with last-wins
lookup, appending the user configuration realises the dict merge. -/
def mergeConfig (config : Config) : Config :=
  getDefaultPreprocessConfig ++ config

/-- `bool(config.get(key, default))`. -/
def boolFlag (c : Config) (k : String) (d : Bool) : Bool :=
  truthy (cfgGetD c k (.jbool d))

/-- `_normalize_columns`: `str(column).strip().lower()` on every label. -/
def normalizeColumns (df : DataFrame) : DataFrame :=
  { df with header := df.header.map (fun nd => (pyLower (pyStrip nd.1), nd.2)) }

/-- The default sentinel list of `_normalize_unwanted_values`. -/
def defaultUnwantedValues : List String :=
  ["", "na", "n/a", "null", "none", "-", "?"]

/-- Python `str.startswith`. -/
def strStartsWith (s pre : String) : Bool :=
  pre.data.isPrefixOf s.data

/-- Python string slicing `s[:n]`. -/
def strTake (s : String) (n : Nat) : String :=
  (s.data.take n).asString

/-- The iterable of sentinel tokens taken from the configuration
(`config.get("unwanted_values", [...])`); Python iterates a string value
character by character, and raises on a non-iterable value (never exercised:
modelled as the empty iterable). -/
def unwantedItems (c : Config) : List String :=
  match cfgGet c "unwanted_values" with
  | none => defaultUnwantedValues
  | some (.jarr l) => (jsonListToList l).map pyStr
  | some (.jstr s) => s.data.map (fun ch => String.mk [ch])
  | some _ => []

/-- `{str(item).strip().lower() for item in unwanted_values}` membership. -/
def unwantedLookup (c : Config) : List String :=
  (unwantedItems c).map (fun s => pyLower (pyStrip s))

/-- `_normalize_unwanted_values`: for object/string-dtyped columns, cells
whose `str(...).strip().lower()` form is in the sentinel set become `NA`. -/
def normalizeUnwantedValues (df : DataFrame) (c : Config) : DataFrame :=
  let lookup := unwantedLookup c
  { df with
    rows := df.rows.map fun r =>
      (r.1, List.zipWith
        (fun (nd : String × DType) cell =>
          if nd.2 = .obj ∧ (pyLower (pyStrip (cellPyStr cell))) ∈ lookup
          then Cell.na else cell)
        df.header r.2) }

/-! ### Per-cell text cleanup (`_cleanup_text_with_config`) -/

/-- One character of `re.sub(r"[^a-z0-9\s]", " ", text)`: characters in
the class `[a-z0-9\s]` survive, every other character becomes a space. -/
def punctKeepChar (c : Char) : Bool :=
  ('a' ≤ c ∧ c ≤ 'z') ∨ ('0' ≤ c ∧ c ≤ '9') ∨ isPySpace c

/-- `re.sub(r"[^a-z0-9\s]", " ", text)`. -/
def removePunct (s : String) : String :=
  (s.data.map (fun c => if punctKeepChar c then c else ' ')).asString

/-- `re.sub(r"\s+", " ", text)`: collapse every maximal whitespace run into
one space (the flag tracks being inside a run). -/
def collapseAux : Bool → List Char → List Char
  | _, [] => []
  | inRun, c :: rest =>
      if isPySpace c then
        if inRun then collapseAux true rest else ' ' :: collapseAux true rest
      else c :: collapseAux false rest

def collapseSpaces (s : String) : String :=
  (collapseAux false s.data).asString

/-- Length of the regex match `https?://\S+|www\.\S+` anchored at the head
of the list, if any (first alternative preferred, greedy `\S+`). -/
def urlMatchLen (l : List Char) : Option Nat :=
  let nonWs := fun (t : List Char) => (t.takeWhile (fun c => !isPySpace c)).length
  if l.take 8 = "https://".data ∧ nonWs (l.drop 8) > 0 then
    some (8 + nonWs (l.drop 8))
  else if l.take 7 = "http://".data ∧ nonWs (l.drop 7) > 0 then
    some (7 + nonWs (l.drop 7))
  else if l.take 4 = "www.".data ∧ nonWs (l.drop 4) > 0 then
    some (4 + nonWs (l.drop 4))
  else none

/-- Left-to-right scan of `re.sub(r"https?://\S+|www\.\S+", " ", text)`;
the fuel bound is the list length (each step consumes at least one char). -/
def stripUrlsAux : Nat → List Char → List Char
  | 0, _ => []
  | _ + 1, [] => []
  | fuel + 1, c :: rest =>
      match urlMatchLen (c :: rest) with
      | some k => ' ' :: stripUrlsAux fuel ((c :: rest).drop k)
      | none => c :: stripUrlsAux fuel rest

def stripUrls (s : String) : String :=
  (stripUrlsAux s.data.length s.data).asString

/-- `_cleanup_text_with_config`.  Unicode NFKC normalization
(`unicodedata.normalize("NFKC", ·)`) is an external library function and is
passed in as the parameter `nfkc`. -/
def cleanupTextWithConfig (nfkc : String → String) (value : String) (config : Config) : String :=
  let t := value
  let t := if boolFlag config "normalize_unicode" true then nfkc t else t
  let t := if boolFlag config "strip_text" true then pyStrip t else t
  let t := if boolFlag config "remove_urls" false then stripUrls t else t
  let t := if boolFlag config "lowercase_text" true then pyLower t else t
  let t := if boolFlag config "remove_punctuation" true then removePunct t else t
  let t := if boolFlag config "collapse_spaces" true then collapseSpaces t else t
  pyStrip t

/-- The text-cleanup pass of `apply_deterministic_preprocessing`: the map
over the object-dtyped columns, keeping `NA` cells (`pd.isna`) untouched. -/
def cleanupObjectColumns (nfkc : String → String) (df : DataFrame) (config : Config) : DataFrame :=
  { df with
    rows := df.rows.map fun r =>
      (r.1, List.zipWith
        (fun (nd : String × DType) cell =>
          if nd.2 = .obj then
            if isNACell cell then cell
            else .text (cleanupTextWithConfig nfkc (cellPyStr cell) config)
          else cell)
        df.header r.2) }

/-! ### Numeric coercion -/

/-- `str.replace(",", "")`: remove every comma. -/
def removeCommas (s : String) : String :=
  (s.data.filter (fun c => c ≠ ',')).asString

/-- Full match of `^-?\d+(\.\d+)?$`. -/
def matchesNumericPattern (s : String) : Bool :=
  let l := match s.data with
    | '-' :: rest => rest
    | l => l
  match splitOnChar '.' l with
  | [intp] => !intp.isEmpty ∧ intp.all Char.isDigit
  | [intp, frac] =>
      (!intp.isEmpty ∧ intp.all Char.isDigit) ∧ (!frac.isEmpty ∧ frac.all Char.isDigit)
  | _ => false

/-- `_looks_like_numeric_series` on a column's cells. -/
def looksLikeNumericSeries (cells : List Cell) : Bool :=
  let nonNull := cells.filter (fun c => !isNACell c)
  if nonNull.isEmpty then false
  else nonNull.all fun c =>
    matchesNumericPattern (pyStrip (removeCommas (cellPyStr c)))

def digitsToNat (l : List Char) : Nat :=
  l.foldl (fun a c => a * 10 + (c.toNat - 48)) 0

/-- Numeric parsing as performed by `pd.to_numeric` on the values the guard
admits: optional sign, digits, optional fractional digits, surrounding
whitespace tolerated. -/
def parseRatPy (s : String) : Option Rat :=
  let t := pyStrip s
  let (neg, l) := match t.data with
    | '-' :: rest => (true, rest)
    | '+' :: rest => (false, rest)
    | l => (false, l)
  match splitOnChar '.' l with
  | [intp] =>
      if !intp.isEmpty ∧ intp.all Char.isDigit then
        some (if neg then -(digitsToNat intp : Rat) else (digitsToNat intp : Rat))
      else none
  | [intp, frac] =>
      if (!intp.isEmpty ∧ intp.all Char.isDigit) ∧ (!frac.isEmpty ∧ frac.all Char.isDigit) then
        let k := frac.length
        let scaled : Nat := digitsToNat intp * 10 ^ k + digitsToNat frac
        let q : Rat := mkRat scaled (10 ^ k)
        some (if neg then -q else q)
      else none
  | _ => none

/-- `pd.to_numeric(series.astype(str).str.replace(",", ""), errors="coerce")`
on one cell: unparseable values (in particular `NA`) become null. -/
def toNumericCell (c : Cell) : Cell :=
  if isNACell c then .na
  else match parseRatPy (removeCommas (cellPyStr c)) with
    | some q => .num q
    | none => .na

/-- `_coerce_numeric_like_columns`. -/
def coerceNumericLikeColumns (df : DataFrame) (config : Config) : DataFrame :=
  if !boolFlag config "coerce_numeric_columns" true then df
  else
    let colCells := fun (i : Nat) => df.rows.map (fun r => r.2.getD i .na)
    let conv : List Bool :=
      (List.range df.header.length).map fun i =>
        (df.header.getD i ("", .numT)).2 = .obj ∧ looksLikeNumericSeries (colCells i)
    { header := List.zipWith
        (fun (nd : String × DType) b => if b then (nd.1, DType.numT) else nd)
        df.header conv,
      rows := df.rows.map fun r =>
        (r.1, List.zipWith (fun cell b => if b then toNumericCell cell else cell) r.2 conv) }

/-! ### Null strategy -/

/-- A configured fill literal placed into a cell (`fillna(value)`). -/
def cellOfJson : Json → Cell
  | .jnull => .na
  | .jbool b => .boolc b
  | .jint n => .num (n : Rat)
  | .jstr s => .text s
  | j => .text (pyStr j)

/-- The strategy string actually applied by `_apply_null_strategy`:
`str(config.get("null_strategy", "drop_any")).strip().lower()`, empty
falling back to `drop_any`, and `keep` forced to `drop_any` when
`drop_nulls` is set. -/
def effectiveNullStrategy (config : Config) : String :=
  let strategy := pyLower (pyStrip (pyStr (cfgGetD config "null_strategy" (.jstr "drop_any"))))
  let strategy := if strategy = "" then "drop_any" else strategy
  if boolFlag config "drop_nulls" true ∧ strategy = "keep" then "drop_any" else strategy

/-- `_apply_null_strategy`. -/
def applyNullStrategy (df : DataFrame) (config : Config) : DataFrame :=
  let strategy := effectiveNullStrategy config
  if strategy = "drop_any" then
    { df with rows := df.rows.filter (fun r => !(r.2.any isNACell)) }
  else if strategy = "drop_all" then
    { df with rows := df.rows.filter (fun r => !(r.2.all isNACell)) }
  else if strategy = "fill" then
    let textFill := cfgGetD config "null_fill_text" (.jstr "")
    let numericFill := cfgGetD config "null_fill_numeric" (.jint 0)
    { df with
      rows := df.rows.map fun r =>
        (r.1, List.zipWith
          (fun (nd : String × DType) cell =>
            if isNACell cell then
              match nd.2 with
              | .obj => cellOfJson textFill
              | .numT => cellOfJson numericFill
              | .boolT => cellOfJson numericFill
            else cell)
          df.header r.2) }
  else df

/-! ### Duplicate removal, sorting, index reset -/

/-- `drop_duplicates(keep="first")`: keep a row when no earlier row has the
same cells (`NaN` compares equal here). -/
def dropDupAux (seen : List (List Cell)) : List (Nat × List Cell) → List (Nat × List Cell)
  | [] => []
  | r :: rest =>
      if r.2 ∈ seen then dropDupAux seen rest
      else r :: dropDupAux (r.2 :: seen) rest

def dropDuplicatesRows (rows : List (Nat × List Cell)) : List (Nat × List Cell) :=
  dropDupAux [] rows

/-- Rank of a cell in the per-column sort order: values below nulls
(`na_position="last"`); distinct scalar kinds never meet in one column. -/
def cellRank : Cell → Nat
  | .num _ => 0
  | .boolc _ => 1
  | .text _ => 2
  | .na => 3

/-- Per-column comparison: numbers by numeric order, strings
lexicographically, nulls last. -/
def cellLe (a b : Cell) : Bool :=
  match a, b with
  | .num x, .num y => decide (x ≤ y)
  | .boolc x, .boolc y => !x || y
  | .text x, .text y => pyStrLe x y
  | .na, .na => true
  | _, _ => decide (cellRank a ≤ cellRank b)

/-- Lexicographic row comparison, first column most significant. -/
def rowLe : List Cell → List Cell → Bool
  | [], _ => true
  | _ :: _, [] => false
  | a :: as, b :: bs =>
      if cellLe a b then (if cellLe b a then rowLe as bs else true) else false

/-- `sort_values(by=all columns, kind="mergesort", na_position="last")`:
a stable merge sort under the lexicographic row comparison. -/
def sortRowsStable (rows : List (Nat × List Cell)) : List (Nat × List Cell) :=
  rows.mergeSort (fun r s => rowLe r.2 s.2)

/-- `reset_index(drop=True)`: contiguous zero-based index labels. -/
def resetIndex (df : DataFrame) : DataFrame :=
  { df with rows := (df.rows.map (·.2)).enum }

/-- `apply_deterministic_preprocessing` (`src/preprocess.py`), with Unicode
NFKC normalization passed in as `nfkc`. -/
def applyDeterministicPreprocessing (nfkc : String → String) (df : DataFrame)
    (config : Config) : DataFrame :=
  let mc := mergeConfig config
  let p := normalizeColumns df
  let p := normalizeUnwantedValues p mc
  let p := if boolFlag mc "cleanup_text" true then cleanupObjectColumns nfkc p mc else p
  let p := coerceNumericLikeColumns p mc
  let p := applyNullStrategy p mc
  let p := if boolFlag mc "drop_duplicates" true then
      { p with rows := dropDuplicatesRows p.rows } else p
  let p := if boolFlag mc "sort_rows" true then
      (if (colNames p).isEmpty then p else { p with rows := sortRowsStable p.rows })
    else p
  resetIndex p

set_option maxRecDepth 1000000 in
unseal List.merge List.mergeSort in
example : sha256FromJson getDefaultPreprocessConfig =
    "962a7f566650b3da7f552b833b9dd1cb7ffcc817feb4e0aa869294e9c42a171e" := by decide

set_option maxRecDepth 1000000 in
example : sha256FromBytes (dataframeToStableCsvBytes
    ⟨[("a", .obj), ("b", .obj)], [(0, [.text "1", .text "x"])]⟩) =
    "eccc6303d8ede5e5ec22d288b8350193f9eb907c93f49c78d5b1ff0af7ecd450" := by decide

set_option maxRecDepth 1000000 in
unseal List.merge List.mergeSort in
example : applyDeterministicPreprocessing id
    ⟨[("Name", .obj), ("Label", .obj)],
     [(0, [.text "Bob", .text "1"]), (1, [.text "bob ", .text "1"]), (2, [.text "Amy", .text "0"])]⟩
    [] =
    ⟨[("name", .obj), ("label", .numT)],
     [(0, [.text "amy", .num 0]), (1, [.text "bob", .num 1])]⟩ := by decide

/-! ## Repository store (`src/repo.py`)

The repository's fixed substructure exists once `RepoState.__init__` has
succeeded (`_ensure_initialized`); the store is embedded at file level:
the HEAD file's character content, the log file's parse state, the version
directories, the raw-data archive and the reports directory. -/

/-- Version record metadata as written to `metadata.json` (the
`VersionRecord` dataclass of `src/models.py` plus `preprocess_stats` and
`artifacts`, `src/commit_service.py` lines 91–120). -/
structure Metadata where
  version_id : String
  parent_id : Option String
  timestamp : String
  commit_message : String
  source_data_path : String
  source_config_path : String
  input_hash : String
  config_hash : String
  version_hash : String
  row_count : Nat
  label_distribution : List (String × Nat)
  rows_before : Nat
  rows_after : Nat
  columns_before : List String
  columns_after : List String
  raw_archive : Option String
deriving Repr, DecidableEq

/-- One immutable version directory (`versions/<id>/`): the four files
`_persist_version` writes.  The configuration snapshot and metadata files
hold the JSON renderings of these structured values. -/
structure VersionDir where
  rawSnapshot : List Nat
  processedCsv : List Nat
  configSnapshot : Config
  metadata : Metadata

/-- A log event: `dedupe_hit` or `commit` (which embeds the metadata
record), `src/commit_service.py` lines 59–68 and 106–120. -/
inductive LogEvent where
  | dedupe (timestamp requestedSourceDataPath requestedSourceConfigPath
      requestedInputHash requestedConfigHash resolvedVersionId message : String)
  | commitEv (m : Metadata)
deriving Repr, DecidableEq

/-- The parse state of `logs.json`, capturing exactly the case distinctions
`read_logs` draws: whitespace-only text, text that is not valid JSON
(`json.JSONDecodeError`), valid JSON that is not a list, or a JSON array of
events. -/
inductive LogFileContent where
  | blank
  | invalidJson (text : String)
  | nonArrayJson (value : Json)
  | arrayOf (events : List LogEvent)

/-- The summary dictionary `compare_versions` returns. -/
structure DiffSummary where
  versionA : String
  versionB : String
  rowCountA : Nat
  rowCountB : Nat
  rowDelta : Int
  configChanged : Bool
  labelDistributionChanged : Bool
  reportPath : String
deriving Repr, DecidableEq

/-- The full report written under `reports/`. -/
structure DiffReport where
  generatedAt : String
  versionA : String
  versionB : String
  rowCountA : Nat
  rowCountB : Nat
  rowDelta : Int
  columnCountA : Nat
  columnCountB : Nat
  configChanged : Bool
  onlyInA : List String
  onlyInB : List String
  common : List String
  labelDistA : List (String × Nat)
  labelDistB : List (String × Nat)
  labelChanged : Bool
  configHashA : String
  configHashB : String
  inputHashA : String
  inputHashB : String
  versionHashA : String
  versionHashB : String
deriving Repr, DecidableEq

/-- Repository state once initialized.  `headFile` is the character content
of the `HEAD` file, `versions` maps directory names under `versions/` to
their contents, `rawData` and `reports` are the archive areas. -/
structure RepoState where
  headFile : String
  logFile : LogFileContent
  versions : List (String × VersionDir)
  rawData : List (String × List Nat)
  reports : List (String × DiffReport)

/-- `RepoState.get_head`: strip the pointer file, empty/null sentinels mean
"no HEAD". -/
def getHead (repo : RepoState) : Option String :=
  let raw := pyStrip repo.headFile
  if raw = "" ∨ raw = "null" ∨ raw = "None" then none else some raw

/-- `RepoState.set_head`: full rewrite of the pointer file. -/
def setHead (repo : RepoState) (versionId : String) : RepoState :=
  { repo with headFile := versionId ++ "\n" }

/-- `RepoState.version_exists` / `(versions_root / id).exists()`. -/
def lookupVersion (repo : RepoState) (versionId : String) : Option VersionDir :=
  repo.versions.lookup versionId

def versionExists (repo : RepoState) (versionId : String) : Bool :=
  (lookupVersion repo versionId).isSome

/-- Python-level errors surfaced by the embedded operations. -/
inductive PyErr where
  | fileNotFound (path : String)
  | validationError (msg : String)
  | dataLineageError (msg : String)
  | pandasError (msg : String)
deriving Repr, DecidableEq

/-- `RepoState.read_logs` on a present log file: total, returns the stored
events or the empty list. -/
def readLogsContent : LogFileContent → List LogEvent
  | .blank => []
  | .invalidJson _ => []
  | .nonArrayJson _ => []
  | .arrayOf events => events

/-- `RepoState.read_logs` including the file-presence dimension: `read_text`
raises `FileNotFoundError` on a missing file, and only `json.JSONDecodeError`
is caught. -/
def readLogsFile : Option LogFileContent → Except PyErr (List LogEvent)
  | none => .error (.fileNotFound "logs.json")
  | some content => .ok (readLogsContent content)

/-- `RepoState.append_log`: read the full log, append, rewrite the whole
file as a JSON array. -/
def appendLogContent (content : LogFileContent) (event : LogEvent) : LogFileContent :=
  .arrayOf (readLogsContent content ++ [event])

def appendLog (repo : RepoState) (event : LogEvent) : RepoState :=
  { repo with logFile := appendLogContent repo.logFile event }

def readLogs (repo : RepoState) : List LogEvent :=
  readLogsContent repo.logFile

/-! ## Commit service (`src/commit_service.py`) -/

/-- `_label_distribution` (`src/commit_service.py` lines 20–24): the empty
dict when no column is named `label`; otherwise
`value_counts(dropna=False).to_dict()` — the distinct values of the column
with their multiplicities, enumerated in count-descending order with an
implementation-defined tie order — fed through the comprehension
`str(key): int(value) for key, value in distribution.items()`, a Python
dict build that *overwrites* the stored count whenever two distinct values
stringify to the same key.  `str(key)` depends on runtime information the
`Cell` embedding does not carry (`np.nan` prints `nan` where `pd.NA`
prints `<NA>`, and an `int64` label prints `1` where a `float64` one
prints `1.0`), and the enumeration order of `value_counts` is
implementation-defined on count ties, so both are passed in as
collaborator parameters, like the parsers: `strCell` renders one cell and
`valueCounts` enumerates the groups.  The theorems assume of `valueCounts`
only that it enumerates `groupCounts` — the distinct values, here in
first-occurrence order, each with its count — up to a permutation. -/
def labelColumnIndex (df : DataFrame) : Option Nat :=
  (colNames df).indexOf? "label"

def labelCells (df : DataFrame) (i : Nat) : List Cell :=
  df.rows.map (fun r => r.2.getD i .na)

def distinctAux : List Cell → List Cell → List Cell
  | _, [] => []
  | seen, c :: rest =>
      if c ∈ seen then distinctAux seen rest
      else c :: distinctAux (c :: seen) rest

/-- The content of `value_counts(dropna=False)`: each distinct value with
its multiplicity, in first-occurrence order. -/
def groupCounts (cells : List Cell) : List (Cell × Nat) :=
  (distinctAux [] cells).map (fun c => (c, cells.count c))

/-- Python dict assignment `m[k] = v`: update in place when the key is
present, append otherwise. -/
def pyDictSet (m : List (String × Nat)) (k : String) (v : Nat) :
    List (String × Nat) :=
  if m.any (fun p => decide (p.1 = k)) then
    m.map (fun p => if p.1 = k then (k, v) else p)
  else m ++ [(k, v)]

/-- The dict comprehension `str(key): int(value) ...` over the enumerated
groups, with Python dict overwrite on key collision. -/
def stringifyCounts (strCell : Cell → String) (groups : List (Cell × Nat)) :
    List (String × Nat) :=
  groups.foldl (fun m g => pyDictSet m (strCell g.1) g.2) []

def labelDistribution (strCell : Cell → String)
    (valueCounts : List Cell → List (Cell × Nat)) (df : DataFrame) :
    List (String × Nat) :=
  match labelColumnIndex df with
  | none => []
  | some i => stringifyCounts strCell (valueCounts (labelCells df i))

/-- `Path(p).name` (POSIX): last meaningful component. -/
def pathName (p : String) : String :=
  ((((splitOnChar '/' p.data).map List.asString).filter
      (fun c => c ≠ "" ∧ c ≠ "."))).getLastD ""

/-- `Path(p).suffix`: the final extension of the name, empty for leading or
trailing dots. -/
def pathSuffix (p : String) : String :=
  let name := (pathName p).data
  match name.reverse.indexOf? '.' with
  | none => ""
  | some rj =>
      let i := name.length - 1 - rj
      if 0 < i ∧ i < name.length - 1 then (name.drop i).asString else ""

/-- `_normalize_user_path`: strip, then drop one pair of matching
surrounding quotes. -/
def normalizeUserPath (p : String) : String :=
  let normalized := pyStrip p
  let l := normalized.data
  if l.length ≥ 2 ∧ l.getD 0 ' ' = l.getLastD ' ' ∧
      (l.getD 0 ' ' = '"' ∨ l.getD 0 ' ' = '\x27') then
    ((l.drop 1).dropLast).asString
  else normalized

/-- The result dictionary returned by `_persist_version`: the `duplicate`
return carries `version_id`, `head` and a message; the `created` return
carries `version_id`, `parent_id`, `head`, row counts and artifact paths. -/
inductive CommitResult where
  | duplicate (versionId : String) (head : Option String) (message : String)
  | created (versionId : String) (parentId : Option String) (head : String)
      (rowsBefore rowsAfter : Nat) (versionPath metadataPath : String)
deriving Repr, DecidableEq

/-- The `status` field of the result dictionary. -/
def CommitResult.status : CommitResult → String
  | .duplicate _ _ _ => "duplicate"
  | .created _ _ _ _ _ _ _ => "created"

def CommitResult.versionId : CommitResult → String
  | .duplicate v _ _ => v
  | .created v _ _ _ _ _ _ => v

/-- The `parent_id` field (only the `created` dictionary has one). -/
def CommitResult.parentIdField : CommitResult → Option String
  | .duplicate _ _ _ => none
  | .created _ p _ _ _ _ _ => p

/-- The `head` field of the result dictionary. -/
def CommitResult.headField : CommitResult → Option String
  | .duplicate _ h _ => h
  | .created _ _ h _ _ _ _ => some h

/-- `_persist_version` (`src/commit_service.py` lines 38–148).  The wall
clock (`_now_utc_iso`) is injected as `timestamp`; the label-distribution
collaborators (see `labelDistribution`) as `strCell` and `valueCounts`. -/
def persistVersion (strCell : Cell → String)
    (valueCounts : List Cell → List (Cell × Nat))
    (repo : RepoState) (sourceDataPath sourceConfigPath : String)
    (inputBytes : List Nat) (rawDf processedDf : DataFrame) (config : Config)
    (commitMessage : String) (timestamp : String) : RepoState × CommitResult :=
  let processedCsvBytes := dataframeToStableCsvBytes processedDf
  let inputHash := sha256FromBytes inputBytes
  let configHash := sha256FromJson config
  let versionHash := sha256FromBytes processedCsvBytes
  let parentId := getHead repo
  if versionExists repo versionHash then
    let repo1 := appendLog repo (.dedupe timestamp sourceDataPath sourceConfigPath
      inputHash configHash versionHash
      "Run recorded. No new version created; existing version reused.")
    (repo1, .duplicate versionHash (getHead repo1)
      "Identical processed output already committed.")
  else
    let rawArchive : Option String :=
      if !strStartsWith sourceDataPath "HEAD:" then
        let sourceName :=
          if pathName sourceDataPath = "" then "raw_input.csv" else pathName sourceDataPath
        some ("raw_data/" ++ (strTake versionHash 8 ++ "__" ++ sourceName))
      else none
    let record : Metadata :=
      { version_id := versionHash
        parent_id := parentId
        timestamp := timestamp
        commit_message := pyStrip commitMessage
        source_data_path := sourceDataPath
        source_config_path := sourceConfigPath
        input_hash := inputHash
        config_hash := configHash
        version_hash := versionHash
        row_count := processedDf.rows.length
        label_distribution := labelDistribution strCell valueCounts processedDf
        rows_before := rawDf.rows.length
        rows_after := processedDf.rows.length
        columns_before := colNames rawDf
        columns_after := colNames processedDf
        raw_archive := rawArchive }
    let dir : VersionDir :=
      ⟨inputBytes, processedCsvBytes, config, record⟩
    let repo1 := { repo with versions := repo.versions ++ [(versionHash, dir)] }
    let repo2 := match rawArchive with
      | some name => { repo1 with rawData := repo1.rawData ++ [(name, inputBytes)] }
      | none => repo1
    let repo3 := appendLog repo2 (.commitEv record)
    let repo4 := setHead repo3 versionHash
    (repo4, .created versionHash parentId versionHash
      rawDf.rows.length processedDf.rows.length
      ("versions/" ++ versionHash) ("versions/" ++ versionHash ++ "/metadata.json"))

/-! ### Intake modes

The dataset/config loaders parse external files; the parsers themselves
(`pd.read_csv`, `pd.read_json`, `json.loads`) are external collaborators
and are passed in as functions; `none` models a parse failure. -/

/-- `read_config` (`src/io_loader.py`). -/
def readConfig (parseJsonConfig : List Nat → Option Config)
    (files : List (String × List Nat)) (configPath : String) : Except PyErr Config :=
  match files.lookup configPath with
  | none => .error (.validationError ("Config file not found: " ++ configPath))
  | some bytes =>
      if pyLower (pathSuffix configPath) ≠ ".json" then
        .error (.validationError "Config file must be a .json file in this prototype.")
      else match parseJsonConfig bytes with
        | some cfg => .ok cfg
        | none => .error (.validationError "Invalid JSON config")

/-- `load_dataset` (`src/io_loader.py`); a parser exception other than the
handled ones surfaces as `pandasError`. -/
def loadDataset (parseCsv parseJsonTable : List Nat → Option DataFrame)
    (files : List (String × List Nat)) (datasetPath : String) : Except PyErr DataFrame :=
  match files.lookup datasetPath with
  | none => .error (.validationError ("Dataset file not found: " ++ datasetPath))
  | some bytes =>
      let suffix := pyLower (pathSuffix datasetPath)
      if suffix = ".csv" then
        match parseCsv bytes with
        | none => .error (.pandasError "read_csv failed")
        | some df =>
            if df.rows.isEmpty ∨ df.header.isEmpty then
              .error (.validationError "Loaded dataset is empty.")
            else .ok df
      else if suffix = ".json" then
        match parseJsonTable bytes with
        | none => .error (.pandasError "read_json failed")
        | some df =>
            if df.rows.isEmpty ∨ df.header.isEmpty then
              .error (.validationError "Loaded dataset is empty.")
            else .ok df
      else .error (.validationError "Only CSV and JSON input are supported in this prototype.")

/-- `validate_schema` (`src/io_loader.py`). -/
def validateSchema (df : DataFrame) : Except PyErr Unit :=
  if df.rows.isEmpty ∨ df.header.isEmpty then
    .error (.validationError "Dataset schema invalid: dataset is empty.")
  else if df.header.length = 0 then
    .error (.validationError "Dataset schema invalid: no columns found.")
  else .ok ()

/-- `create_version_from_paths`. -/
def createVersionFromPaths (nfkc : String → String)
    (strCell : Cell → String) (valueCounts : List Cell → List (Cell × Nat))
    (parseCsv parseJsonTable : List Nat → Option DataFrame)
    (parseJsonConfig : List Nat → Option Config)
    (files : List (String × List Nat)) (repo : RepoState)
    (datasetPath configPath commitMessage timestamp : String) :
    Except PyErr (RepoState × CommitResult) := do
  let datasetPath := normalizeUserPath datasetPath
  let configPath := normalizeUserPath configPath
  let rawBytes ← match files.lookup datasetPath with
    | none => Except.error (.fileNotFound datasetPath)
    | some bs => Except.ok bs
  let config ← readConfig parseJsonConfig files configPath
  let rawDf ← loadDataset parseCsv parseJsonTable files datasetPath
  let _ ← validateSchema rawDf
  let processedDf := applyDeterministicPreprocessing nfkc rawDf config
  return persistVersion strCell valueCounts repo datasetPath configPath rawBytes rawDf
    processedDf config
    commitMessage timestamp

/-- `create_version_from_head`. -/
def createVersionFromHead (nfkc : String → String)
    (strCell : Cell → String) (valueCounts : List Cell → List (Cell × Nat))
    (parseCsv : List Nat → Option DataFrame)
    (parseJsonConfig : List Nat → Option Config)
    (files : List (String × List Nat)) (repo : RepoState)
    (configPath commitMessage timestamp : String) :
    Except PyErr (RepoState × CommitResult) := do
  let configPath := normalizeUserPath configPath
  let headVersion ← match getHead repo with
    | none => Except.error (.dataLineageError "HEAD is not set. First commit must use a dataset path.")
    | some h => Except.ok h
  let dir ← match lookupVersion repo headVersion with
    | none => Except.error (.dataLineageError "HEAD processed snapshot not found")
    | some d => Except.ok d
  let config ← readConfig parseJsonConfig files configPath
  let inputBytes := dir.processedCsv
  let rawDf ← match parseCsv inputBytes with
    | none => Except.error (.pandasError "read_csv failed")
    | some df => Except.ok df
  let _ ← validateSchema rawDf
  let processedDf := applyDeterministicPreprocessing nfkc rawDf config
  return persistVersion strCell valueCounts repo ("HEAD:" ++ headVersion) configPath
    inputBytes rawDf
    processedDf config commitMessage timestamp

/-- `create_version_from_raw_default`. -/
def createVersionFromRawDefault (nfkc : String → String)
    (strCell : Cell → String) (valueCounts : List Cell → List (Cell × Nat))
    (parseCsv parseJsonTable : List Nat → Option DataFrame)
    (files : List (String × List Nat)) (repo : RepoState)
    (datasetPath commitMessage timestamp : String) :
    Except PyErr (RepoState × CommitResult) := do
  let datasetPath := normalizeUserPath datasetPath
  let rawBytes ← match files.lookup datasetPath with
    | none => Except.error (.fileNotFound datasetPath)
    | some bs => Except.ok bs
  let rawDf ← loadDataset parseCsv parseJsonTable files datasetPath
  let _ ← validateSchema rawDf
  let config := getDefaultPreprocessConfig
  let processedDf := applyDeterministicPreprocessing nfkc rawDf config
  return persistVersion strCell valueCounts repo datasetPath "DEFAULT_CONFIG" rawBytes
    rawDf processedDf
    config commitMessage timestamp

/-! ## Checkout (`app.py` `_checkout_flow`, after a target id is selected) -/

/-- Validate the target against `version_exists`, then `set_head`; errors
leave the repository untouched. -/
def checkoutVersion (repo : RepoState) (target : String) :
    RepoState × Except PyErr (Option String × String) :=
  if !versionExists repo target then
    (repo, .error (.dataLineageError ("Version not found: " ++ target)))
  else
    let previousHead := getHead repo
    (setHead repo target, .ok (previousHead, target))

/-! ## Diff engine (`src/diff_service.py`) -/

/-- `sorted(list(set(a) - set(b)))`. -/
def sortedSetDiff (a b : List String) : List String :=
  ((a.filter (fun x => x ∉ b)).dedup).mergeSort pyStrLe

/-- `sorted(list(set(a) & set(b)))`. -/
def sortedSetInter (a b : List String) : List String :=
  ((a.filter (fun x => x ∈ b)).dedup).mergeSort pyStrLe

/-- `compare_versions`: validates both ids, loads processed tables and
metadata, computes the structural report, persists it under `reports/` and
returns the summary.  The processed-table parser (`pd.read_csv`) is passed
in; errors leave the repository untouched. -/
def compareVersions (parseCsv : List Nat → Option DataFrame) (repo : RepoState)
    (versionA versionB : String) (timestamp : String) :
    RepoState × Except PyErr DiffSummary :=
  match lookupVersion repo versionA with
  | none => (repo, .error (.dataLineageError ("Version not found: " ++ versionA)))
  | some dirA =>
    match lookupVersion repo versionB with
    | none => (repo, .error (.dataLineageError ("Version not found: " ++ versionB)))
    | some dirB =>
      match parseCsv dirA.processedCsv with
      | none => (repo, .error (.pandasError "read_csv failed"))
      | some dfA =>
        match parseCsv dirB.processedCsv with
        | none => (repo, .error (.pandasError "read_csv failed"))
        | some dfB =>
          let columnsA := colNames dfA
          let columnsB := colNames dfB
          let labelDistA := dirA.metadata.label_distribution
          let labelDistB := dirB.metadata.label_distribution
          let configHashA := dirA.metadata.config_hash
          let configHashB := dirB.metadata.config_hash
          let report : DiffReport :=
            { generatedAt := timestamp
              versionA := versionA
              versionB := versionB
              rowCountA := dfA.rows.length
              rowCountB := dfB.rows.length
              rowDelta := (dfB.rows.length : Int) - (dfA.rows.length : Int)
              columnCountA := columnsA.length
              columnCountB := columnsB.length
              configChanged := configHashA ≠ configHashB
              onlyInA := sortedSetDiff columnsA columnsB
              onlyInB := sortedSetDiff columnsB columnsA
              common := sortedSetInter columnsA columnsB
              labelDistA := labelDistA
              labelDistB := labelDistB
              labelChanged := labelDistA ≠ labelDistB
              configHashA := configHashA
              configHashB := configHashB
              inputHashA := dirA.metadata.input_hash
              inputHashB := dirB.metadata.input_hash
              versionHashA := dirA.metadata.version_hash
              versionHashB := dirB.metadata.version_hash }
          let reportName := "diff_" ++ (strTake versionA 8 ++ ("__" ++ strTake versionB 8)) ++ ".json"
          let repo1 := { repo with reports := repo.reports ++ [(reportName, report)] }
          (repo1, .ok
            { versionA := versionA
              versionB := versionB
              rowCountA := dfA.rows.length
              rowCountB := dfB.rows.length
              rowDelta := (dfB.rows.length : Int) - (dfA.rows.length : Int)
              configChanged := configHashA ≠ configHashB
              labelDistributionChanged := labelDistA ≠ labelDistB
              reportPath := "reports/" ++ reportName })

/-! ## Claim C8 — defensive log read

`read_logs` catches only `json.JSONDecodeError`; the claim also promises an
empty result for a *missing* log file, but `Path.read_text` raises
`FileNotFoundError` there, which is not caught. -/

/-- C8 (counterexample): with the log file missing, `read_logs` raises
`FileNotFoundError` instead of returning the empty sequence the claim
promises. -/
theorem read_logs_missing_file_raises :
    readLogsFile none = .error (.fileNotFound "logs.json") ∧
    readLogsFile none ≠ .ok ([] : List LogEvent) := by
  constructor
  · rfl
  · intro h
    simp [readLogsFile] at h

/-- C8 (amended): on a present log file, `read_logs` never raises and
returns the empty sequence when the file is empty or does not contain a
valid JSON array, and otherwise the stored ordered event sequence; on a
missing log file it raises. -/
theorem read_logs_defensive_on_present_file :
    (∀ content, readLogsFile (some content) = .ok (readLogsContent content)) ∧
    readLogsContent .blank = [] ∧
    (∀ text, readLogsContent (.invalidJson text) = []) ∧
    (∀ value, readLogsContent (.nonArrayJson value) = []) ∧
    (∀ events, readLogsContent (.arrayOf events) = events) ∧
    (∃ e, readLogsFile none = .error e) := by
  refine ⟨fun _ => rfl, rfl, fun _ => rfl, fun _ => rfl, fun _ => rfl, ⟨_, rfl⟩⟩

/-! ## Claim C9 — append-only log -/

/-- C9: `append_log` rewrites the log file as exactly the previously stored
event sequence with the new event appended; no operation of the system
edits, reorders or removes previously stored entries — `_persist_version`
appends exactly one event on either outcome, and checkout and diff leave
the log untouched. -/
theorem append_log_appends_exactly_one_event :
    (∀ content event, appendLogContent content event =
        .arrayOf (readLogsContent content ++ [event])) ∧
    (∀ repo event, readLogs (appendLog repo event) = readLogs repo ++ [event]) ∧
    (∀ sc vc repo sdp scp ib rawDf procDf cfg msg ts, ∃ e,
        readLogs ((persistVersion sc vc repo sdp scp ib rawDf procDf cfg msg ts).1) =
          readLogs repo ++ [e]) ∧
    (∀ repo target, ((checkoutVersion repo target).1).logFile = repo.logFile) ∧
    (∀ parseCsv repo va vb ts,
        ((compareVersions parseCsv repo va vb ts).1).logFile = repo.logFile) := by
  refine ⟨fun content event => rfl, fun repo event => rfl, ?_, ?_, ?_⟩
  · intro sc vc repo sdp scp ib rawDf procDf cfg msg ts
    unfold persistVersion
    by_cases h : versionExists repo (sha256FromBytes (dataframeToStableCsvBytes procDf)) = true
    · simp only [h, if_true]
      exact ⟨_, rfl⟩
    · simp only [Bool.not_eq_true] at h
      simp only [h, Bool.false_eq_true, if_false]
      simp only [readLogs, appendLog, appendLogContent, setHead]
      split <;> exact ⟨_, rfl⟩
  · intro repo target
    unfold checkoutVersion
    by_cases h : versionExists repo target = true <;> simp [h, setHead]
  · intro parseCsv repo va vb ts
    unfold compareVersions
    cases lookupVersion repo va <;> simp
    cases lookupVersion repo vb <;> simp
    cases parseCsv _ <;> simp
    cases parseCsv _ <;> simp

/-! ## Claims C1 and C2 — content addressing and duplicate commits -/

theorem lookup_append_of_none {α β : Type} [BEq α] (l1 l2 : List (α × β)) (k : α)
    (h : l1.lookup k = none) : (l1 ++ l2).lookup k = l2.lookup k := by
  induction l1 with
  | nil => rfl
  | cons hd tl ih =>
      obtain ⟨a, b⟩ := hd
      cases hk : (k == a) with
      | true => simp [List.lookup, hk] at h
      | false =>
          simp only [List.lookup, hk] at h
          simp only [List.cons_append, List.lookup, hk]
          exact ih h

theorem lookup_single_self {β : Type} (k : String) (v : β) :
    ([(k, v)] : List (String × β)).lookup k = some v := by
  simp [List.lookup]

/-- C1: the version id returned by `_persist_version` — on either outcome —
is the SHA-256 hex digest of the canonical CSV bytes of the processed
table; on creation the stored version directory is keyed by that digest and
records it as `version_id` alongside the canonical bytes; and any two
commits whose processed tables serialize to the same canonical bytes
resolve to the same version id. -/
theorem version_id_equals_sha256_of_canonical_csv :
    (∀ sc vc repo sdp scp ib rawDf procDf cfg msg ts,
      ((persistVersion sc vc repo sdp scp ib rawDf procDf cfg msg ts).2).versionId =
        sha256FromBytes (dataframeToStableCsvBytes procDf)) ∧
    (∀ sc vc repo sdp scp ib rawDf procDf cfg msg ts,
      versionExists repo (sha256FromBytes (dataframeToStableCsvBytes procDf)) = false →
      ∃ dir,
        lookupVersion ((persistVersion sc vc repo sdp scp ib rawDf procDf cfg msg ts).1)
            (sha256FromBytes (dataframeToStableCsvBytes procDf)) = some dir ∧
        dir.metadata.version_id = sha256FromBytes (dataframeToStableCsvBytes procDf) ∧
        dir.processedCsv = dataframeToStableCsvBytes procDf) ∧
    (∀ sc vc repoA repoB sdpA scpA ibA rawA procA cfgA msgA tsA sdpB scpB ibB rawB procB cfgB msgB tsB,
      dataframeToStableCsvBytes procA = dataframeToStableCsvBytes procB →
      ((persistVersion sc vc repoA sdpA scpA ibA rawA procA cfgA msgA tsA).2).versionId =
        ((persistVersion sc vc repoB sdpB scpB ibB rawB procB cfgB msgB tsB).2).versionId) := by
  have hv : ∀ sc vc repo sdp scp ib rawDf procDf cfg msg ts,
      ((persistVersion sc vc repo sdp scp ib rawDf procDf cfg msg ts).2).versionId =
        sha256FromBytes (dataframeToStableCsvBytes procDf) := by
    intro sc vc repo sdp scp ib rawDf procDf cfg msg ts
    by_cases h : versionExists repo (sha256FromBytes (dataframeToStableCsvBytes procDf)) = true
    · simp [persistVersion, h, CommitResult.versionId]
    · simp only [Bool.not_eq_true] at h
      simp [persistVersion, h, CommitResult.versionId]
  refine ⟨hv, ?_, ?_⟩
  · intro sc vc repo sdp scp ib rawDf procDf cfg msg ts h
    have h0 : List.lookup (sha256FromBytes (dataframeToStableCsvBytes procDf))
        repo.versions = none := by
      cases hl : List.lookup (sha256FromBytes (dataframeToStableCsvBytes procDf))
          repo.versions with
      | none => rfl
      | some d => simp [versionExists, lookupVersion, hl] at h
    simp only [persistVersion, h, Bool.false_eq_true, if_false]
    split <;>
      exact ⟨_,
        by simp only [lookupVersion, appendLog, setHead]
           rw [lookup_append_of_none _ _ _ h0]
           exact lookup_single_self _ _,
        rfl, rfl⟩
  · intro sc vc repoA repoB sdpA scpA ibA rawA procA cfgA msgA tsA sdpB scpB ibB rawB procB cfgB msgB tsB h
    rw [hv, hv, h]

/-- Concrete table, repository states and version directory used to
instantiate the commit-engine theorems. -/
def dfW : DataFrame :=
  ⟨[("a", .obj), ("b", .obj)], [(0, [.text "1", .text "x"])]⟩

def repoEmptyW : RepoState := ⟨"null", .arrayOf [], [], [], []⟩

def mdW : Metadata :=
  ⟨"", none, "", "", "", "", "", "", "", 0, [], 0, 0, [], [], none⟩

def dirW : VersionDir := ⟨[], [], [], mdW⟩

/-- The SHA-256 digest of `dfW`'s canonical CSV bytes (`"a,b\n1,x\n"`). -/
def dfWHash : String :=
  "eccc6303d8ede5e5ec22d288b8350193f9eb907c93f49c78d5b1ff0af7ecd450"

set_option maxRecDepth 1000000 in
example : sha256FromBytes (dataframeToStableCsvBytes dfW) = dfWHash := by decide

def repoDupW : RepoState := ⟨"null", .arrayOf [], [(dfWHash, dirW)], [], []⟩

set_option maxRecDepth 1000000 in
/-- C1 (witness). -/
theorem version_id_equals_sha256_of_canonical_csv_witness :
    ((persistVersion cellPyStr groupCounts repoEmptyW "d.csv" "c.json" [49] dfW dfW [] "m" "t").2).versionId =
        sha256FromBytes (dataframeToStableCsvBytes dfW) ∧
    (∃ dir,
        lookupVersion ((persistVersion cellPyStr groupCounts repoEmptyW "d.csv" "c.json" [49] dfW dfW [] "m" "t").1)
            (sha256FromBytes (dataframeToStableCsvBytes dfW)) = some dir ∧
        dir.metadata.version_id = sha256FromBytes (dataframeToStableCsvBytes dfW) ∧
        dir.processedCsv = dataframeToStableCsvBytes dfW) ∧
    ((persistVersion cellPyStr groupCounts repoEmptyW "d.csv" "c.json" [49] dfW dfW [] "m" "t").2).versionId =
        ((persistVersion cellPyStr groupCounts repoDupW "e.csv" "f.json" [50] dfW dfW [] "n" "u").2).versionId :=
  ⟨version_id_equals_sha256_of_canonical_csv.1 cellPyStr groupCounts repoEmptyW "d.csv" "c.json" [49] dfW dfW [] "m" "t",
   version_id_equals_sha256_of_canonical_csv.2.1 cellPyStr groupCounts repoEmptyW "d.csv" "c.json" [49] dfW dfW [] "m" "t"
     (by decide),
   version_id_equals_sha256_of_canonical_csv.2.2 cellPyStr groupCounts repoEmptyW repoDupW
     "d.csv" "c.json" [49] dfW dfW [] "m" "t" "e.csv" "f.json" [50] dfW dfW [] "n" "u" rfl⟩

/-- C2: when the computed version hash already names an existing version
directory, `_persist_version` appends exactly one `dedupe_hit` event
carrying the requested paths, input hash, config hash and the resolved
existing id, returns status `duplicate`, and leaves HEAD, the version
directories and the raw-data archive untouched. -/
theorem duplicate_commit_is_logged_noop :
    ∀ sc vc repo sdp scp ib rawDf procDf cfg msg ts,
      versionExists repo (sha256FromBytes (dataframeToStableCsvBytes procDf)) = true →
      ((persistVersion sc vc repo sdp scp ib rawDf procDf cfg msg ts).2).status = "duplicate" ∧
      ((persistVersion sc vc repo sdp scp ib rawDf procDf cfg msg ts).1).headFile = repo.headFile ∧
      getHead ((persistVersion sc vc repo sdp scp ib rawDf procDf cfg msg ts).1) = getHead repo ∧
      ((persistVersion sc vc repo sdp scp ib rawDf procDf cfg msg ts).1).versions = repo.versions ∧
      ((persistVersion sc vc repo sdp scp ib rawDf procDf cfg msg ts).1).rawData = repo.rawData ∧
      readLogs ((persistVersion sc vc repo sdp scp ib rawDf procDf cfg msg ts).1) =
        readLogs repo ++
          [LogEvent.dedupe ts sdp scp (sha256FromBytes ib) (sha256FromJson cfg)
            (sha256FromBytes (dataframeToStableCsvBytes procDf))
            "Run recorded. No new version created; existing version reused."] ∧
      ((persistVersion sc vc repo sdp scp ib rawDf procDf cfg msg ts).2).versionId =
        sha256FromBytes (dataframeToStableCsvBytes procDf) ∧
      ((persistVersion sc vc repo sdp scp ib rawDf procDf cfg msg ts).2).headField = getHead repo := by
  intro sc vc repo sdp scp ib rawDf procDf cfg msg ts h
  simp only [persistVersion, h, if_true]
  exact ⟨rfl, rfl, rfl, rfl, rfl, rfl, rfl, rfl⟩

set_option maxRecDepth 1000000 in
/-- C2 (witness). -/
theorem duplicate_commit_is_logged_noop_witness :
    ((persistVersion cellPyStr groupCounts repoDupW "d.csv" "c.json" [49] dfW dfW [] "m" "t").2).status = "duplicate" ∧
    ((persistVersion cellPyStr groupCounts repoDupW "d.csv" "c.json" [49] dfW dfW [] "m" "t").1).versions =
      repoDupW.versions ∧
    getHead ((persistVersion cellPyStr groupCounts repoDupW "d.csv" "c.json" [49] dfW dfW [] "m" "t").1) =
      getHead repoDupW :=
  have h := duplicate_commit_is_logged_noop cellPyStr groupCounts repoDupW "d.csv" "c.json" [49] dfW dfW [] "m" "t"
    (by decide)
  ⟨h.1, h.2.2.2.1, h.2.2.1⟩

/-! ## Claim C3 — parent linkage -/

/-- On the `created` outcome, `_persist_version` returns `parent_id` equal
to HEAD read at the start of the persist step, and records the same value
in the stored metadata. -/
theorem persist_created_parent :
    ∀ sc vc repo sdp scp ib rawDf procDf cfg msg ts,
      ((persistVersion sc vc repo sdp scp ib rawDf procDf cfg msg ts).2).status = "created" →
      ((persistVersion sc vc repo sdp scp ib rawDf procDf cfg msg ts).2).parentIdField = getHead repo ∧
      ∃ dir,
        lookupVersion ((persistVersion sc vc repo sdp scp ib rawDf procDf cfg msg ts).1)
            (((persistVersion sc vc repo sdp scp ib rawDf procDf cfg msg ts).2).versionId) =
          some dir ∧
        dir.metadata.parent_id = getHead repo := by
  intro sc vc repo sdp scp ib rawDf procDf cfg msg ts hst
  by_cases h : versionExists repo (sha256FromBytes (dataframeToStableCsvBytes procDf)) = true
  · exfalso
    simp [persistVersion, h, CommitResult.status] at hst
  · simp only [Bool.not_eq_true] at h
    have h0 : List.lookup (sha256FromBytes (dataframeToStableCsvBytes procDf))
        repo.versions = none := by
      cases hl : List.lookup (sha256FromBytes (dataframeToStableCsvBytes procDf))
          repo.versions with
      | none => rfl
      | some d => simp [versionExists, lookupVersion, hl] at h
    simp only [persistVersion, h, Bool.false_eq_true, if_false]
    refine ⟨rfl, ?_⟩
    split <;>
      exact ⟨_,
        by simp only [CommitResult.versionId, lookupVersion, appendLog, setHead]
           rw [lookup_append_of_none _ _ _ h0]
           exact lookup_single_self _ _,
        rfl⟩

/-- C3: in all three intake modes, a `created` commit returns — and stores
in the new version record — a `parent_id` equal to the value HEAD held when
the commit began (`None` on a first commit). -/
theorem created_parent_id_equals_prior_head :
    (∀ nfkc sc vc pc pj pcfg files repo dp cp msg ts r res,
      createVersionFromPaths nfkc sc vc pc pj pcfg files repo dp cp msg ts = .ok (r, res) →
      res.status = "created" →
      res.parentIdField = getHead repo ∧
      ∃ dir, lookupVersion r res.versionId = some dir ∧
        dir.metadata.parent_id = getHead repo) ∧
    (∀ nfkc sc vc pc pj files repo dp msg ts r res,
      createVersionFromRawDefault nfkc sc vc pc pj files repo dp msg ts = .ok (r, res) →
      res.status = "created" →
      res.parentIdField = getHead repo ∧
      ∃ dir, lookupVersion r res.versionId = some dir ∧
        dir.metadata.parent_id = getHead repo) ∧
    (∀ nfkc sc vc pc pcfg files repo cp msg ts r res,
      createVersionFromHead nfkc sc vc pc pcfg files repo cp msg ts = .ok (r, res) →
      res.status = "created" →
      res.parentIdField = getHead repo ∧
      ∃ dir, lookupVersion r res.versionId = some dir ∧
        dir.metadata.parent_id = getHead repo) := by
  have handle : ∀ (sc : Cell → String) (vc : List Cell → List (Cell × Nat))
      (repo : RepoState) (X : RepoState × CommitResult) r res,
      X = (r, res) → res.status = "created" →
      (∀ sdp scp ib rawDf procDf cfg msg ts,
        X = persistVersion sc vc repo sdp scp ib rawDf procDf cfg msg ts →
        res.parentIdField = getHead repo ∧
        ∃ dir, lookupVersion r res.versionId = some dir ∧
          dir.metadata.parent_id = getHead repo) := by
    intro sc vc repo X r res h hst sdp scp ib rawDf procDf cfg msg ts hX
    subst hX
    have h1 := congrArg Prod.fst h
    have h2 := congrArg Prod.snd h
    dsimp only at h1 h2
    subst h1; subst h2
    exact persist_created_parent sc vc repo sdp scp ib rawDf procDf cfg msg ts hst
  refine ⟨?_, ?_, ?_⟩
  · intro nfkc sc vc pc pj pcfg files repo dp cp msg ts r res h hst
    simp only [createVersionFromPaths, bind, Except.bind] at h
    split at h
    · exact Except.noConfusion h
    · split at h
      · exact Except.noConfusion h
      · split at h
        · exact Except.noConfusion h
        · split at h
          · exact Except.noConfusion h
          · injection h with h1
            exact handle sc vc repo _ r res h1 hst _ _ _ _ _ _ _ _ rfl
  · intro nfkc sc vc pc pj files repo dp msg ts r res h hst
    simp only [createVersionFromRawDefault, bind, Except.bind] at h
    split at h
    · exact Except.noConfusion h
    · split at h
      · exact Except.noConfusion h
      · split at h
        · exact Except.noConfusion h
        · injection h with h1
          exact handle sc vc repo _ r res h1 hst _ _ _ _ _ _ _ _ rfl
  · intro nfkc sc vc pc pcfg files repo cp msg ts r res h hst
    simp only [createVersionFromHead, bind, Except.bind] at h
    split at h
    · exact Except.noConfusion h
    · split at h
      · exact Except.noConfusion h
      · split at h
        · exact Except.noConfusion h
        · split at h
          · exact Except.noConfusion h
          · split at h
            · exact Except.noConfusion h
            · injection h with h1
              exact handle sc vc repo _ r res h1 hst _ _ _ _ _ _ _ _ rfl

def parseCsvW : List Nat → Option DataFrame := fun _ => some dfW

def parseCfgW : List Nat → Option Config := fun _ => some []

def filesW : List (String × List Nat) := [("d.csv", [49]), ("c.json", [50])]

def bytesW : List Nat := dataframeToStableCsvBytes dfW

def dirHeadW : VersionDir := ⟨[], bytesW, [], mdW⟩

def repoHeadW : RepoState := ⟨dfWHash ++ "\n", .arrayOf [], [(dfWHash, dirHeadW)], [], []⟩

def dfW2 : DataFrame := ⟨[("z", .obj)], [(0, [.text "yy"])]⟩

def parseCsvW2 : List Nat → Option DataFrame := fun _ => some dfW2

set_option maxRecDepth 1000000 in
unseal List.merge List.mergeSort in
/-- C3 (witness): one `created` run of each intake mode. -/
theorem created_parent_id_equals_prior_head_witness :
    (((persistVersion cellPyStr groupCounts repoEmptyW "d.csv" "c.json" [49] dfW
        (applyDeterministicPreprocessing id dfW []) [] "m" "t").2).parentIdField =
      getHead repoEmptyW) ∧
    (((persistVersion cellPyStr groupCounts repoEmptyW "d.csv" "DEFAULT_CONFIG" [49] dfW
        (applyDeterministicPreprocessing id dfW getDefaultPreprocessConfig)
        getDefaultPreprocessConfig "m" "t").2).parentIdField = getHead repoEmptyW) ∧
    (((persistVersion cellPyStr groupCounts repoHeadW ("HEAD:" ++ dfWHash) "c.json" bytesW dfW2
        (applyDeterministicPreprocessing id dfW2 []) [] "m" "t").2).parentIdField =
      getHead repoHeadW) := by
  have h1 : createVersionFromPaths id cellPyStr groupCounts parseCsvW parseCsvW parseCfgW filesW repoEmptyW
      "d.csv" "c.json" "m" "t" =
      .ok (persistVersion cellPyStr groupCounts repoEmptyW "d.csv" "c.json" [49] dfW
        (applyDeterministicPreprocessing id dfW []) [] "m" "t") := by rfl
  have h2 : createVersionFromRawDefault id cellPyStr groupCounts parseCsvW parseCsvW filesW repoEmptyW
      "d.csv" "m" "t" =
      .ok (persistVersion cellPyStr groupCounts repoEmptyW "d.csv" "DEFAULT_CONFIG" [49] dfW
        (applyDeterministicPreprocessing id dfW getDefaultPreprocessConfig)
        getDefaultPreprocessConfig "m" "t") := by rfl
  have h3 : createVersionFromHead id cellPyStr groupCounts parseCsvW2 parseCfgW filesW repoHeadW
      "c.json" "m" "t" =
      .ok (persistVersion cellPyStr groupCounts repoHeadW ("HEAD:" ++ dfWHash) "c.json" bytesW dfW2
        (applyDeterministicPreprocessing id dfW2 []) [] "m" "t") := by rfl
  refine ⟨?_, ?_, ?_⟩
  · exact (created_parent_id_equals_prior_head.1 id cellPyStr groupCounts parseCsvW parseCsvW parseCfgW filesW
      repoEmptyW "d.csv" "c.json" "m" "t" _ _
      (h1.trans (congrArg Except.ok Prod.mk.eta.symm)) (by decide)).1
  · exact (created_parent_id_equals_prior_head.2.1 id cellPyStr groupCounts parseCsvW parseCsvW filesW
      repoEmptyW "d.csv" "m" "t" _ _
      (h2.trans (congrArg Except.ok Prod.mk.eta.symm)) (by decide)).1
  · exact (created_parent_id_equals_prior_head.2.2 id cellPyStr groupCounts parseCsvW2 parseCfgW filesW
      repoHeadW "c.json" "m" "t" _ _
      (h3.trans (congrArg Except.ok Prod.mk.eta.symm)) (by decide)).1

/-! ## Claim C4 — HEAD validity -/

/-- HEAD is null or names an existing version directory. -/
def headValidB (repo : RepoState) : Bool :=
  match getHead repo with
  | none => true
  | some v => versionExists repo v

def repoOddW : RepoState := ⟨"null", .arrayOf [], [(" x", dirW)], [], []⟩

/-- C4 (counterexample): from a state whose HEAD is null and whose only
version directory is named `" x"` (a name with leading whitespace, which
the system itself never creates but the claimed invariant quantifies over),
checking out `" x"` succeeds — `version_exists " x"` holds — yet the HEAD
pointer file then reads back as `"x"` after stripping, which names no
existing directory: HEAD is neither null nor an existing version. -/
theorem head_validity_checkout_counterexample :
    headValidB repoOddW = true ∧
    ((checkoutVersion repoOddW " x").2).isOk = true ∧
    headValidB (checkoutVersion repoOddW " x").1 = false := by
  refine ⟨by decide, by decide, by decide⟩

theorem dropWhile_eq_self_of_all {p : Char → Bool} {l : List Char}
    (h : ∀ c ∈ l, p c = false) : l.dropWhile p = l := by
  cases l with
  | nil => rfl
  | cons a t => simp [List.dropWhile_cons, h a (List.mem_cons_self a t)]

/-- Stripping ignores one trailing whitespace character. -/
theorem trimChars_append_ws {l : List Char} {c : Char} (hc : isPySpace c = true) :
    trimChars (l ++ [c]) = trimChars l := by
  unfold trimChars
  rw [List.dropWhile_append]
  by_cases he : (l.dropWhile isPySpace).isEmpty = true
  · simp [he, List.dropWhile_cons, hc, List.isEmpty_iff.mp he]
  · simp only [he, Bool.false_eq_true, if_false]
    rw [List.reverse_append]
    simp [List.dropWhile_cons, hc]

theorem trimChars_eq_self_of_all {l : List Char}
    (h : ∀ c ∈ l, isPySpace c = false) : trimChars l = l := by
  unfold trimChars
  rw [dropWhile_eq_self_of_all h, dropWhile_eq_self_of_all, List.reverse_reverse]
  intro c hc
  exact h c (List.mem_reverse.mp hc)

theorem nibbleChar_mem_hexDigits (n : Nat) : nibbleChar n ∈ hexDigits := by
  unfold nibbleChar
  have hlt : n % 16 < hexDigits.length := Nat.mod_lt n (by norm_num)
  rw [List.getD_eq_getElem _ _ hlt]
  exact List.getElem_mem hlt

theorem sha256_chars_hex (bs : List Nat) :
    ∀ c ∈ (sha256FromBytes bs).data, c ∈ hexDigits := by
  intro c hc
  have : c ∈ (sha256Bytes bs).flatMap byteHexChars := hc
  obtain ⟨b, _, hb⟩ := List.mem_flatMap.mp this
  simp only [byteHexChars, List.mem_cons, List.not_mem_nil, or_false] at hb
  rcases hb with rfl | rfl
  · exact nibbleChar_mem_hexDigits _
  · exact nibbleChar_mem_hexDigits _

theorem hexDigits_not_pySpace : ∀ c ∈ hexDigits, isPySpace c = false := by decide

theorem sha256_pyStrip_self (bs : List Nat) :
    pyStrip (sha256FromBytes bs) = sha256FromBytes bs := by
  unfold pyStrip
  rw [trimChars_eq_self_of_all
    (fun c hc => hexDigits_not_pySpace c (sha256_chars_hex bs c hc))]
  exact String.asString_toList _

theorem sha256_data_ne_nil (bs : List Nat) : (sha256FromBytes bs).data ≠ [] := by
  simp only [sha256FromBytes, bytesToHex, sha256Bytes, word32Bytes, byteHexChars]
  exact List.cons_ne_nil _ _

theorem sha256_ne_sentinels (bs : List Nat) :
    sha256FromBytes bs ≠ "" ∧ sha256FromBytes bs ≠ "null" ∧
    sha256FromBytes bs ≠ "None" := by
  have hchars := sha256_chars_hex bs
  refine ⟨?_, ?_, ?_⟩
  · intro h
    exact sha256_data_ne_nil bs (by rw [h])
  · intro h
    have hu : 'u' ∈ (sha256FromBytes bs).data := by rw [h]; decide
    have hnot : 'u' ∉ hexDigits := by decide
    exact hnot (hchars _ hu)
  · intro h
    have hu : 'N' ∈ (sha256FromBytes bs).data := by rw [h]; decide
    have hnot : 'N' ∉ hexDigits := by decide
    exact hnot (hchars _ hu)

theorem getHead_setHead (repo : RepoState) (t : String) (ht : pyStrip t = t) :
    getHead (setHead repo t) =
      if t = "" ∨ t = "null" ∨ t = "None" then none else some t := by
  have hps : pyStrip (t ++ "\n") = t := by
    unfold pyStrip
    rw [String.data_append]
    show (trimChars (t.data ++ ['\n'])).asString = t
    rw [trimChars_append_ws (by decide)]
    exact ht
  simp only [getHead, setHead, hps]

theorem persist_created_head :
    ∀ sc vc repo sdp scp ib rawDf procDf cfg msg ts,
      versionExists repo (sha256FromBytes (dataframeToStableCsvBytes procDf)) = false →
      getHead ((persistVersion sc vc repo sdp scp ib rawDf procDf cfg msg ts).1) =
        some (sha256FromBytes (dataframeToStableCsvBytes procDf)) ∧
      versionExists ((persistVersion sc vc repo sdp scp ib rawDf procDf cfg msg ts).1)
        (sha256FromBytes (dataframeToStableCsvBytes procDf)) = true := by
  intro sc vc repo sdp scp ib rawDf procDf cfg msg ts h
  have h0 : List.lookup (sha256FromBytes (dataframeToStableCsvBytes procDf))
      repo.versions = none := by
    cases hl : List.lookup (sha256FromBytes (dataframeToStableCsvBytes procDf))
        repo.versions with
    | none => rfl
    | some d => simp [versionExists, lookupVersion, hl] at h
  have hs := sha256_ne_sentinels (dataframeToStableCsvBytes procDf)
  simp only [persistVersion, h, Bool.false_eq_true, if_false]
  constructor
  · split <;>
      (rw [getHead_setHead _ _ (sha256_pyStrip_self _)]
       simp [hs.1, hs.2.1, hs.2.2])
  · split <;>
      (simp only [versionExists, lookupVersion, appendLog, setHead]
       rw [lookup_append_of_none _ _ _ h0, lookup_single_self]
       rfl)

theorem persist_preserves_headValid :
    ∀ sc vc repo sdp scp ib rawDf procDf cfg msg ts,
      headValidB repo = true →
      headValidB ((persistVersion sc vc repo sdp scp ib rawDf procDf cfg msg ts).1) = true := by
  intro sc vc repo sdp scp ib rawDf procDf cfg msg ts hv
  by_cases h : versionExists repo (sha256FromBytes (dataframeToStableCsvBytes procDf)) = true
  · simp only [persistVersion, h, if_true]
    exact hv
  · simp only [Bool.not_eq_true] at h
    have hc := persist_created_head sc vc repo sdp scp ib rawDf procDf cfg msg ts h
    unfold headValidB
    rw [hc.1]
    exact hc.2

theorem checkout_err_leaves_repo :
    ∀ repo t, versionExists repo t = false → (checkoutVersion repo t).1 = repo := by
  intro repo t h
  simp [checkoutVersion, h]

theorem checkout_preserves_headValid :
    ∀ repo t, headValidB repo = true → pyStrip t = t →
      headValidB ((checkoutVersion repo t).1) = true := by
  intro repo t hv ht
  by_cases h : versionExists repo t = true
  · simp only [checkoutVersion, h, Bool.not_true, Bool.false_eq_true, if_false]
    unfold headValidB
    rw [getHead_setHead repo t ht]
    by_cases hs : t = "" ∨ t = "null" ∨ t = "None"
    · simp [hs]
    · simp only [hs, if_false]
      simpa [versionExists, lookupVersion, setHead] using h
  · simp only [Bool.not_eq_true] at h
    rw [checkout_err_leaves_repo repo t h]
    exact hv

theorem fromPaths_ok_is_persist :
    ∀ nfkc sc vc pc pj pcfg files repo dp cp msg ts pr,
      createVersionFromPaths nfkc sc vc pc pj pcfg files repo dp cp msg ts = .ok pr →
      ∃ sdp scp ib rawDf procDf cfg,
        pr = persistVersion sc vc repo sdp scp ib rawDf procDf cfg msg ts := by
  intro nfkc sc vc pc pj pcfg files repo dp cp msg ts pr h
  simp only [createVersionFromPaths, bind, Except.bind] at h
  split at h
  · exact Except.noConfusion h
  · split at h
    · exact Except.noConfusion h
    · split at h
      · exact Except.noConfusion h
      · split at h
        · exact Except.noConfusion h
        · injection h with h1
          exact ⟨_, _, _, _, _, _, h1.symm⟩

theorem fromRawDefault_ok_is_persist :
    ∀ nfkc sc vc pc pj files repo dp msg ts pr,
      createVersionFromRawDefault nfkc sc vc pc pj files repo dp msg ts = .ok pr →
      ∃ sdp scp ib rawDf procDf cfg,
        pr = persistVersion sc vc repo sdp scp ib rawDf procDf cfg msg ts := by
  intro nfkc sc vc pc pj files repo dp msg ts pr h
  simp only [createVersionFromRawDefault, bind, Except.bind] at h
  split at h
  · exact Except.noConfusion h
  · split at h
    · exact Except.noConfusion h
    · split at h
      · exact Except.noConfusion h
      · injection h with h1
        exact ⟨_, _, _, _, _, _, h1.symm⟩

theorem fromHead_ok_is_persist :
    ∀ nfkc sc vc pc pcfg files repo cp msg ts pr,
      createVersionFromHead nfkc sc vc pc pcfg files repo cp msg ts = .ok pr →
      ∃ sdp scp ib rawDf procDf cfg,
        pr = persistVersion sc vc repo sdp scp ib rawDf procDf cfg msg ts := by
  intro nfkc sc vc pc pcfg files repo cp msg ts pr h
  simp only [createVersionFromHead, bind, Except.bind] at h
  split at h
  · exact Except.noConfusion h
  · split at h
    · exact Except.noConfusion h
    · split at h
      · exact Except.noConfusion h
      · split at h
        · exact Except.noConfusion h
        · split at h
          · exact Except.noConfusion h
          · injection h with h1
            exact ⟨_, _, _, _, _, _, h1.symm⟩

/-- C4 (amended): starting from any state in which HEAD is null or names an
existing version directory, HEAD keeps that property after every commit —
in any intake mode, duplicates included — and after every checkout whose
target id is unchanged by whitespace-stripping (every id the system itself
creates is a 64-character hex digest, hence strip-stable); a created commit
sets HEAD to the new version's id only with its directory in place, and a
checkout whose `version_exists` test fails leaves the repository untouched. -/
theorem head_validity_invariant_amended :
    (∀ sc vc repo sdp scp ib rawDf procDf cfg msg ts,
      headValidB repo = true →
      headValidB ((persistVersion sc vc repo sdp scp ib rawDf procDf cfg msg ts).1) = true) ∧
    (∀ sc vc repo sdp scp ib rawDf procDf cfg msg ts,
      versionExists repo (sha256FromBytes (dataframeToStableCsvBytes procDf)) = false →
      getHead ((persistVersion sc vc repo sdp scp ib rawDf procDf cfg msg ts).1) =
        some (sha256FromBytes (dataframeToStableCsvBytes procDf)) ∧
      versionExists ((persistVersion sc vc repo sdp scp ib rawDf procDf cfg msg ts).1)
        (sha256FromBytes (dataframeToStableCsvBytes procDf)) = true) ∧
    (∀ nfkc sc vc pc pj pcfg files repo dp cp msg ts r res,
      createVersionFromPaths nfkc sc vc pc pj pcfg files repo dp cp msg ts = .ok (r, res) →
      headValidB repo = true → headValidB r = true) ∧
    (∀ nfkc sc vc pc pj files repo dp msg ts r res,
      createVersionFromRawDefault nfkc sc vc pc pj files repo dp msg ts = .ok (r, res) →
      headValidB repo = true → headValidB r = true) ∧
    (∀ nfkc sc vc pc pcfg files repo cp msg ts r res,
      createVersionFromHead nfkc sc vc pc pcfg files repo cp msg ts = .ok (r, res) →
      headValidB repo = true → headValidB r = true) ∧
    (∀ repo t, headValidB repo = true → pyStrip t = t →
      headValidB ((checkoutVersion repo t).1) = true) ∧
    (∀ repo t, versionExists repo t = false → (checkoutVersion repo t).1 = repo) := by
  refine ⟨persist_preserves_headValid, persist_created_head, ?_, ?_, ?_,
    checkout_preserves_headValid, checkout_err_leaves_repo⟩
  · intro nfkc sc vc pc pj pcfg files repo dp cp msg ts r res h hv
    obtain ⟨sdp, scp, ib, rawDf, procDf, cfg, hpr⟩ :=
      fromPaths_ok_is_persist nfkc sc vc pc pj pcfg files repo dp cp msg ts (r, res) h
    have hr := congrArg Prod.fst hpr
    dsimp only at hr
    rw [hr]
    exact persist_preserves_headValid sc vc repo sdp scp ib rawDf procDf cfg msg ts hv
  · intro nfkc sc vc pc pj files repo dp msg ts r res h hv
    obtain ⟨sdp, scp, ib, rawDf, procDf, cfg, hpr⟩ :=
      fromRawDefault_ok_is_persist nfkc sc vc pc pj files repo dp msg ts (r, res) h
    have hr := congrArg Prod.fst hpr
    dsimp only at hr
    rw [hr]
    exact persist_preserves_headValid sc vc repo sdp scp ib rawDf procDf cfg msg ts hv
  · intro nfkc sc vc pc pcfg files repo cp msg ts r res h hv
    obtain ⟨sdp, scp, ib, rawDf, procDf, cfg, hpr⟩ :=
      fromHead_ok_is_persist nfkc sc vc pc pcfg files repo cp msg ts (r, res) h
    have hr := congrArg Prod.fst hpr
    dsimp only at hr
    rw [hr]
    exact persist_preserves_headValid sc vc repo sdp scp ib rawDf procDf cfg msg ts hv

set_option maxRecDepth 1000000 in
unseal List.merge List.mergeSort in
/-- C4 (witness). -/
theorem head_validity_invariant_amended_witness :
    headValidB ((persistVersion cellPyStr groupCounts repoEmptyW "d.csv" "c.json" [49] dfW
      (applyDeterministicPreprocessing id dfW []) [] "m" "t").1) = true ∧
    headValidB ((persistVersion cellPyStr groupCounts repoDupW "d.csv" "c.json" [49] dfW dfW [] "m" "t").1) = true ∧
    headValidB ((checkoutVersion repoDupW dfWHash).1) = true ∧
    (checkoutVersion repoEmptyW "zzz").1 = repoEmptyW :=
  ⟨head_validity_invariant_amended.1 cellPyStr groupCounts repoEmptyW "d.csv" "c.json" [49] dfW
      (applyDeterministicPreprocessing id dfW []) [] "m" "t" (by decide),
   head_validity_invariant_amended.1 cellPyStr groupCounts repoDupW "d.csv" "c.json" [49] dfW dfW [] "m" "t"
      (by decide),
   head_validity_invariant_amended.2.2.2.2.2.1 repoDupW dfWHash (by decide) (by decide),
   head_validity_invariant_amended.2.2.2.2.2.2 repoEmptyW "zzz" (by decide)⟩

/-! ## Claim C6 — per-cell text cleanup -/

/-- The cleanup sub-steps, named; `_cleanup_text_with_config` is their
fixed-order chain. -/
def nfkcStep (nfkc : String → String) (c : Config) (t : String) : String :=
  if boolFlag c "normalize_unicode" true then nfkc t else t

def stripStep (c : Config) (t : String) : String :=
  if boolFlag c "strip_text" true then pyStrip t else t

def urlStep (c : Config) (t : String) : String :=
  if boolFlag c "remove_urls" false then stripUrls t else t

def lowerStep (c : Config) (t : String) : String :=
  if boolFlag c "lowercase_text" true then pyLower t else t

def punctStep (c : Config) (t : String) : String :=
  if boolFlag c "remove_punctuation" true then removePunct t else t

def collapseStep (c : Config) (t : String) : String :=
  if boolFlag c "collapse_spaces" true then collapseSpaces t else t

/-- The claim's reading of the punctuation sub-step: keep exactly the
alphanumerics and spaces of the input, delete everything else. -/
def specPunctFilter (s : String) : String :=
  (s.data.filter (fun c =>
    ('a' ≤ c ∧ c ≤ 'z') ∨ ('A' ≤ c ∧ c ≤ 'Z') ∨ ('0' ≤ c ∧ c ≤ '9') ∨ c = ' ')).asString

/-- C6 (counterexample): the code's punctuation sub-step is
`re.sub(r"[^a-z0-9\s]", " ", text)` — on `"A,b"` it yields `"  b"`, not the
`"Ab"` the claim's "retain exactly the alphanumerics and spaces" semantics
predicts: the comma becomes a space instead of vanishing, and the uppercase
`A` does not survive at all. -/
theorem punctuation_step_counterexample :
    removePunct "A,b" = "  b" ∧
    specPunctFilter "A,b" = "Ab" ∧
    removePunct "A,b" ≠ specPunctFilter "A,b" := by
  refine ⟨by decide, by decide, by decide⟩

/-- C6 (amended): the cleanup sub-steps run in the fixed order NFKC
normalization → trim → URL stripping → lowercasing → punctuation removal →
whitespace collapsing → final trim; and the punctuation sub-step is a
length-preserving character map that keeps exactly the characters in
`[a-z0-9\s]` and replaces every other character — uppercase letters
included, whether or not lowercasing is enabled — with a space. -/
theorem cleanup_substep_order_and_punctuation :
    (∀ nfkc cfg v, cleanupTextWithConfig nfkc v cfg =
      pyStrip (collapseStep cfg (punctStep cfg (lowerStep cfg
        (urlStep cfg (stripStep cfg (nfkcStep nfkc cfg v))))))) ∧
    (∀ s, (removePunct s).data =
      s.data.map (fun c => if punctKeepChar c then c else ' ')) ∧
    (∀ s, (removePunct s).length = s.length) ∧
    (∀ s i, i < s.data.length →
      (removePunct s).data.getD i ' ' =
        (if punctKeepChar (s.data.getD i ' ') then s.data.getD i ' ' else ' ')) ∧
    (∀ s c, c ∈ (removePunct s).data → punctKeepChar c = true ∨ c = ' ') ∧
    (∀ c, c ∈ "ABCDEFGHIJKLMNOPQRSTUVWXYZ".data → punctKeepChar c = false) := by
  refine ⟨fun nfkc cfg v => rfl, fun s => rfl, ?_, ?_, ?_, by decide⟩
  · intro s
    show (s.data.map _).asString.length = s.length
    rw [List.length_asString, List.length_map]
    rfl
  · intro s i h
    have hd : (removePunct s).data =
        s.data.map (fun c => if punctKeepChar c then c else ' ') := rfl
    rw [hd]
    simp [List.getD_eq_getElem?_getD, List.getElem?_map, List.getElem?_eq_getElem h]
  · intro s c hc
    have hd : (removePunct s).data =
        s.data.map (fun c => if punctKeepChar c then c else ' ') := rfl
    rw [hd] at hc
    obtain ⟨a, _, rfl⟩ := List.mem_map.mp hc
    by_cases hk : punctKeepChar a = true
    · left; simp [hk]
    · right; simp [hk]

/-- C6 (witness). -/
theorem cleanup_substep_order_and_punctuation_witness :
    cleanupTextWithConfig id "x" [] =
      pyStrip (collapseStep [] (punctStep [] (lowerStep []
        (urlStep [] (stripStep [] (nfkcStep id [] "x")))))) ∧
    ((removePunct "a!").data.getD 1 ' ' =
      (if punctKeepChar ("a!".data.getD 1 ' ') then "a!".data.getD 1 ' ' else ' ')) ∧
    (punctKeepChar ' ' = true ∨ ' ' = ' ') ∧
    punctKeepChar 'Z' = false :=
  ⟨cleanup_substep_order_and_punctuation.1 id [] "x",
   cleanup_substep_order_and_punctuation.2.2.2.1 "a!" 1 (by decide),
   cleanup_substep_order_and_punctuation.2.2.2.2.1 "B!" ' ' (by decide),
   cleanup_substep_order_and_punctuation.2.2.2.2.2 'Z' (by decide)⟩

/-! ## Claim C7 — numeric coercion -/

def dfAllNullW : DataFrame := ⟨[("x", .obj)], [(0, [.na])]⟩

/-- C7 (counterexample): in a text column whose values are all null, every
non-null value vacuously matches the numeric pattern, so the claimed
biconditional demands conversion — but `_looks_like_numeric_series` returns
`False` on an empty non-null set and the column keeps its object dtype. -/
theorem numeric_coercion_all_null_counterexample :
    ([Cell.na].all (fun c => isNACell c ||
        matchesNumericPattern (pyStrip (removeCommas (cellPyStr c)))) = true) ∧
    coerceNumericLikeColumns dfAllNullW getDefaultPreprocessConfig = dfAllNullW ∧
    ((dfAllNullW.header.getD 0 ("", .numT)).2 = .obj) := by
  refine ⟨by decide, by decide, by decide⟩

theorem all_filter_non_na (l : List Cell) (P : Cell → Bool) :
    ((l.filter (fun c => !isNACell c)).all P) =
      l.all (fun c => isNACell c || P c) := by
  induction l with
  | nil => rfl
  | cons hd tl ih =>
      cases hna : isNACell hd <;> simp [List.filter_cons, hna, ih]

/-- Whether `_coerce_numeric_like_columns` converts column `i`. -/
def coerceConv (df : DataFrame) (i : Nat) : Bool :=
  (df.header.getD i ("", .numT)).2 = .obj ∧
    looksLikeNumericSeries (df.rows.map (fun r => r.2.getD i .na))

theorem looksLike_characterization (cells : List Cell) :
    looksLikeNumericSeries cells =
      ((cells.any (fun c => !isNACell c)) &&
        cells.all (fun c => isNACell c ||
          matchesNumericPattern (pyStrip (removeCommas (cellPyStr c))))) := by
  by_cases he : (cells.filter (fun c => !isNACell c)) = []
  · have hany : cells.any (fun c => !isNACell c) = false := by
      rw [List.any_eq_false]
      intro x hx hb
      have hmem : x ∈ cells.filter (fun c => !isNACell c) := by
        rw [List.mem_filter]
        exact ⟨hx, hb⟩
      rw [he] at hmem
      exact absurd hmem (List.not_mem_nil x)
    simp [looksLikeNumericSeries, he, hany]
  · have hany : cells.any (fun c => !isNACell c) = true := by
      rw [List.any_eq_true]
      obtain ⟨c, hc⟩ := List.exists_mem_of_ne_nil _ he
      rw [List.mem_filter] at hc
      exact ⟨c, hc.1, hc.2⟩
    have hemp : (cells.filter (fun c => !isNACell c)).isEmpty = false := by
      simp [List.isEmpty_iff, he]
    simp only [looksLikeNumericSeries, hemp, Bool.false_eq_true, if_false, hany, Bool.true_and]
    exact all_filter_non_na cells _

theorem splitOnChar_cons_ne (sep c : Char) (l : List Char) (hc : ¬ c = sep) :
    ∃ hd tl, splitOnChar sep (c :: l) = (c :: hd) :: tl := by
  cases hsc : splitOnChar sep l with
  | nil => exact ⟨[], [], by simp [splitOnChar, hsc, hc]⟩
  | cons hd tl => exact ⟨hd, tl, by simp [splitOnChar, hsc, hc]⟩

theorem parse_branches (neg : Bool) (l : List Char)
    (h : (match splitOnChar '.' l with
      | [intp] => decide ((!intp.isEmpty) = true ∧ intp.all Char.isDigit = true)
      | [intp, frac] =>
        decide (((!intp.isEmpty) = true ∧ intp.all Char.isDigit = true) ∧
          (!frac.isEmpty) = true ∧ frac.all Char.isDigit = true)
      | _ => false) = true) :
    ∃ q, (match splitOnChar '.' l with
      | [intp] =>
        if (!intp.isEmpty) = true ∧ intp.all Char.isDigit = true then
          some (if neg = true then -(digitsToNat intp : Rat) else (digitsToNat intp : Rat))
        else none
      | [intp, frac] =>
        if ((!intp.isEmpty) = true ∧ intp.all Char.isDigit = true) ∧
            (!frac.isEmpty) = true ∧ frac.all Char.isDigit = true then
          let k := frac.length
          let scaled : Nat := digitsToNat intp * 10 ^ k + digitsToNat frac
          let q : Rat := mkRat scaled (10 ^ k)
          some (if neg = true then -q else q)
        else none
      | _ => none) = some q := by
  cases hs : splitOnChar '.' l with
  | nil => rw [hs] at h; simp at h
  | cons intp tl =>
      rw [hs] at h
      cases tl with
      | nil =>
          dsimp only at h ⊢
          exact ⟨_, by rw [if_pos (of_decide_eq_true h)]⟩
      | cons frac tl2 =>
          cases tl2 with
          | nil =>
              dsimp only at h ⊢
              exact ⟨_, by rw [if_pos (of_decide_eq_true h)]⟩
          | cons a tl3 => simp at h

theorem headMatch_default (c : Char) (rest : List Char) (h1 : ¬ c = '-') (h2 : ¬ c = '+') :
    (match c :: rest with
      | '-' :: r => ((true : Bool), r)
      | '+' :: r => ((false : Bool), r)
      | l => ((false : Bool), l)) = (false, c :: rest) := by
  split
  · rename_i r heq
    injection heq with e1 e2
    exact absurd e1 h1
  · rename_i r heq
    injection heq with e1 e2
    exact absurd e1 h2
  · rfl

/-- A value matching the integer-or-decimal pattern always parses. -/
theorem parse_of_matches (s : String) (h : matchesNumericPattern (pyStrip s) = true) :
    ∃ q, parseRatPy s = some q := by
  unfold matchesNumericPattern at h
  unfold parseRatPy
  cases hl : (pyStrip s).data with
  | nil =>
      rw [hl] at h
      simp [splitOnChar] at h
  | cons c rest =>
      rw [hl] at h
      by_cases hc : c = '-'
      · subst hc
        simp only at h
        simp only [hl]
        exact parse_branches true rest h
      · split at h
        · rename_i r2 heq
          injection heq with h1 h2
          exact absurd h1 hc
        · dsimp only at h
          by_cases hp : c = '+'
          · subst hp
            exfalso
            obtain ⟨hd, tl, hsp⟩ := splitOnChar_cons_ne '.' '+' rest (by decide)
            rw [hsp] at h
            cases tl with
            | nil =>
                have hall := (of_decide_eq_true h).2
                rw [List.all_cons, (by decide : ('+').isDigit = false)] at hall
                simp at hall
            | cons frac tl2 =>
                cases tl2 with
                | nil =>
                    have hall := (of_decide_eq_true h).1.2
                    rw [List.all_cons, (by decide : ('+').isDigit = false)] at hall
                    simp at hall
                | cons a tl3 => simp at h
          · simp only [hl]
            rw [headMatch_default c rest hc hp]
            exact parse_branches false (c :: rest) h

theorem coerce_header_pointwise (df : DataFrame) (c : Config)
    (hflag : boolFlag c "coerce_numeric_columns" true = true)
    (i : Nat) (hi : i < df.header.length) :
    (coerceNumericLikeColumns df c).header.getD i ("", .numT) =
      (if coerceConv df i then ((df.header.getD i ("", .numT)).1, DType.numT)
       else df.header.getD i ("", .numT)) := by
  have hrows : (coerceNumericLikeColumns df c).header =
      List.zipWith (fun (nd : String × DType) b => if b then (nd.1, DType.numT) else nd)
        df.header ((List.range df.header.length).map (fun j => coerceConv df j)) := by
    simp only [coerceNumericLikeColumns, hflag, Bool.not_true, Bool.false_eq_true, if_false]
    rfl
  have hlen : ((List.range df.header.length).map (fun j => coerceConv df j)).length =
      df.header.length := by simp
  have hzlen : (List.zipWith (fun (nd : String × DType) b => if b then (nd.1, DType.numT) else nd)
      df.header ((List.range df.header.length).map (fun j => coerceConv df j))).length =
      df.header.length := by
    rw [List.length_zipWith, hlen, Nat.min_self]
  rw [hrows, List.getD_eq_getElem?_getD, List.getD_eq_getElem?_getD,
    List.getElem?_eq_getElem (by rw [hzlen]; exact hi), List.getElem?_eq_getElem hi]
  rw [List.getElem_zipWith]
  simp [hi]

/-- C7 (amended): with `coerce_numeric_columns` enabled, an object-dtyped
column is converted to numeric dtype iff it holds at least one non-null
value and every non-null value, after stripping commas and surrounding
whitespace, matches `^-?\d+(\.\d+)?$`; a column whose values are all null
is left unchanged (the guard returns `False` on an empty non-null set).
Converted cells parse to numbers, nulls stay null, all other columns keep
their dtype, and with the flag disabled the table passes through
untouched. -/
theorem numeric_coercion_guard_amended :
    (∀ cells, looksLikeNumericSeries cells =
      ((cells.any (fun c => !isNACell c)) &&
        cells.all (fun c => isNACell c ||
          matchesNumericPattern (pyStrip (removeCommas (cellPyStr c)))))) ∧
    (∀ df c, boolFlag c "coerce_numeric_columns" true = false →
      coerceNumericLikeColumns df c = df) ∧
    (∀ df c, boolFlag c "coerce_numeric_columns" true = true →
      (coerceNumericLikeColumns df c).rows =
        df.rows.map (fun r => (r.1,
          List.zipWith (fun cell b => if b then toNumericCell cell else cell) r.2
            ((List.range df.header.length).map (fun j => coerceConv df j))))) ∧
    (∀ df c, boolFlag c "coerce_numeric_columns" true = true →
      ∀ i, i < df.header.length →
      (coerceNumericLikeColumns df c).header.getD i ("", .numT) =
        (if coerceConv df i then ((df.header.getD i ("", .numT)).1, DType.numT)
         else df.header.getD i ("", .numT))) ∧
    (∀ cell, isNACell cell = true → toNumericCell cell = .na) ∧
    (∀ cell, isNACell cell = false →
      matchesNumericPattern (pyStrip (removeCommas (cellPyStr cell))) = true →
      ∃ q, toNumericCell cell = .num q) := by
  refine ⟨looksLike_characterization, ?_, ?_, fun df c h => coerce_header_pointwise df c h,
    ?_, ?_⟩
  · intro df c hflag
    simp [coerceNumericLikeColumns, hflag]
  · intro df c hflag
    simp only [coerceNumericLikeColumns, hflag, Bool.not_true, Bool.false_eq_true, if_false]
    rfl
  · intro cell hna
    simp [toNumericCell, hna]
  · intro cell hna hm
    obtain ⟨q, hp⟩ := parse_of_matches (removeCommas (cellPyStr cell)) hm
    exact ⟨q, by simp [toNumericCell, hna, hp]⟩

/-- C7 (witness). -/
theorem numeric_coercion_guard_amended_witness :
    looksLikeNumericSeries [Cell.text "7"] =
      (([Cell.text "7"].any (fun c => !isNACell c)) &&
        [Cell.text "7"].all (fun c => isNACell c ||
          matchesNumericPattern (pyStrip (removeCommas (cellPyStr c))))) ∧
    coerceNumericLikeColumns dfW [("coerce_numeric_columns", .jbool false)] = dfW ∧
    (coerceNumericLikeColumns dfW getDefaultPreprocessConfig).header.getD 0 ("", .numT) =
      (if coerceConv dfW 0 then ((dfW.header.getD 0 ("", .numT)).1, DType.numT)
       else dfW.header.getD 0 ("", .numT)) ∧
    toNumericCell .na = .na ∧
    (∃ q, toNumericCell (.text "12") = .num q) :=
  ⟨numeric_coercion_guard_amended.1 [Cell.text "7"],
   numeric_coercion_guard_amended.2.1 dfW [("coerce_numeric_columns", .jbool false)] (by decide),
   numeric_coercion_guard_amended.2.2.2.1 dfW getDefaultPreprocessConfig (by decide) 0
     (by decide),
   numeric_coercion_guard_amended.2.2.2.2.1 .na (by decide),
   numeric_coercion_guard_amended.2.2.2.2.2 (.text "12") (by decide) (by decide)⟩
/-! ## Claim C5 — fixed pipeline order -/
theorem charsLe_total : ∀ a b, (charsLe a b || charsLe b a) = true := by
  intro a
  induction a with
  | nil => intro b; simp [charsLe]
  | cons x xs ih =>
      intro b
      cases b with
      | nil => simp [charsLe]
      | cons y ys =>
          simp only [charsLe, Bool.or_eq_true, Bool.and_eq_true, decide_eq_true_eq]
          rcases Nat.lt_trichotomy x.toNat y.toNat with h | h | h
          · tauto
          · have := ih ys
            simp only [Bool.or_eq_true] at this
            tauto
          · tauto

theorem charsLe_trans : ∀ a b c, charsLe a b = true → charsLe b c = true →
    charsLe a c = true := by
  intro a
  induction a with
  | nil => intro b c h1 h2; rfl
  | cons x xs ih =>
      intro b c h1 h2
      cases b with
      | nil => simp [charsLe] at h1
      | cons y ys =>
          cases c with
          | nil => simp [charsLe] at h2
          | cons z zs =>
              simp only [charsLe, Bool.or_eq_true, Bool.and_eq_true,
                decide_eq_true_eq] at h1 h2 ⊢
              rcases h1 with h1 | ⟨h1e, h1r⟩
              · rcases h2 with h2 | ⟨h2e, h2r⟩
                · exact Or.inl (Nat.lt_trans h1 h2)
                · exact Or.inl (h2e ▸ h1)
              · rcases h2 with h2 | ⟨h2e, h2r⟩
                · exact Or.inl (h1e ▸ h2)
                · exact Or.inr ⟨h1e.trans h2e, ih ys zs h1r h2r⟩

theorem boolLeAux_trans : ∀ x y z : Bool,
    (!x || y) = true → (!y || z) = true → (!x || z) = true := by decide

theorem cellLe_total : ∀ a b, (cellLe a b || cellLe b a) = true := by
  intro a b
  cases a <;> cases b <;>
    simp only [cellLe, cellRank, pyStrLe, Bool.or_eq_true, decide_eq_true_eq]
  all_goals try omega
  all_goals try exact le_total _ _
  all_goals try simp
  all_goals try (rename_i x y; cases x <;> cases y <;> simp)
  all_goals
    (rename_i x y
     first
     | (have hcl := charsLe_total x.data y.data; simpa using hcl)
     | (have hcl := charsLe_total x y; simpa using hcl))

theorem cellLe_trans : ∀ a b c, cellLe a b = true → cellLe b c = true →
    cellLe a c = true := by
  intro a b c h1 h2
  cases a <;> cases b <;> cases c <;>
    simp only [cellLe, cellRank, pyStrLe, decide_eq_true_eq] at h1 h2 ⊢
  all_goals try omega
  all_goals try exact le_trans h1 h2
  all_goals try exact boolLeAux_trans _ _ _ h1 h2
  all_goals try exact charsLe_trans _ _ _ h1 h2

theorem rowLe_total : ∀ a b, (rowLe a b || rowLe b a) = true := by
  intro a
  induction a with
  | nil => intro b; simp [rowLe]
  | cons x xs ih =>
      intro b
      cases b with
      | nil => simp [rowLe]
      | cons y ys =>
          simp only [rowLe]
          by_cases hxy : cellLe x y = true
          · by_cases hyx : cellLe y x = true
            · simp only [hxy, hyx, if_true]
              exact ih ys
            · simp [hxy, hyx]
          · have hyx : cellLe y x = true := by
              have := cellLe_total x y
              simp only [Bool.or_eq_true] at this
              tauto
            simp [hxy, hyx]

theorem rowLe_trans : ∀ a b c, rowLe a b = true → rowLe b c = true →
    rowLe a c = true := by
  intro a
  induction a with
  | nil => intro b c h1 h2; rfl
  | cons x xs ih =>
      intro b c h1 h2
      cases b with
      | nil => simp [rowLe] at h1
      | cons y ys =>
          cases c with
          | nil => simp [rowLe] at h2
          | cons z zs =>
              simp only [rowLe] at h1 h2 ⊢
              by_cases hxy : cellLe x y = true
              · by_cases hyz : cellLe y z = true
                · have hxz : cellLe x z = true := cellLe_trans _ _ _ hxy hyz
                  simp only [hxy, hyz, hxz, if_true] at h1 h2 ⊢
                  by_cases hyx : cellLe y x = true
                  · by_cases hzy : cellLe z y = true
                    · have hzx : cellLe z x = true := cellLe_trans _ _ _ hzy hyx
                      simp only [hyx, hzy, hzx, if_true] at h1 h2 ⊢
                      exact ih ys zs h1 h2
                    · have hzx : ¬ cellLe z x = true := fun hzx =>
                        hzy (cellLe_trans _ _ _ hzx hxy)
                      simp [hzx]
                  · have hzx : ¬ cellLe z x = true := fun hzx =>
                      hyx (cellLe_trans _ _ _ hyz hzx)
                    simp [hzx]
                · simp [hyz] at h2
              · simp [hxy] at h1

theorem dropDupAux_sublist : ∀ (rows : List (Nat × List Cell)) (seen : List (List Cell)),
    List.Sublist (dropDupAux seen rows) rows := by
  intro rows
  induction rows with
  | nil => intro seen; exact List.Sublist.refl []
  | cons r rest ih =>
      intro seen
      by_cases h : r.2 ∈ seen
      · simp only [dropDupAux, h, if_true]
        exact (ih seen).cons r
      · simp only [dropDupAux, h, if_false]
        exact (ih (r.2 :: seen)).cons₂ r

theorem dropDupAux_mem : ∀ (rows : List (Nat × List Cell)) (seen : List (List Cell)) s,
    s ∈ dropDupAux seen rows →
    s.2 ∉ seen ∧ rows.find? (fun t => decide (t.2 = s.2)) = some s := by
  intro rows
  induction rows with
  | nil => intro seen s hs; exact absurd hs (List.not_mem_nil s)
  | cons r rest ih =>
      intro seen s hs
      by_cases h : r.2 ∈ seen
      · simp only [dropDupAux, h, if_true] at hs
        obtain ⟨hns, hfind⟩ := ih seen s hs
        have hne : r.2 ≠ s.2 := fun he => hns (he ▸ h)
        refine ⟨hns, ?_⟩
        rw [List.find?_cons]
        simp only [hne, decide_False]
        exact hfind
      · simp only [dropDupAux, h, if_false, List.mem_cons] at hs
        rcases hs with rfl | hs
        · refine ⟨h, ?_⟩
          rw [List.find?_cons]
          simp
        · obtain ⟨hns, hfind⟩ := ih (r.2 :: seen) s hs
          simp only [List.mem_cons, not_or] at hns
          have hne : r.2 ≠ s.2 := fun he => hns.1 he.symm
          refine ⟨hns.2, ?_⟩
          rw [List.find?_cons]
          simp only [hne, decide_False]
          exact hfind

theorem dropDupAux_pairwise : ∀ (rows : List (Nat × List Cell)) (seen : List (List Cell)),
    (dropDupAux seen rows).Pairwise (fun r s => r.2 ≠ s.2) := by
  intro rows
  induction rows with
  | nil => intro seen; exact List.Pairwise.nil
  | cons r rest ih =>
      intro seen
      by_cases h : r.2 ∈ seen
      · simp only [dropDupAux, h, if_true]
        exact ih seen
      · simp only [dropDupAux, h, if_false]
        refine List.Pairwise.cons ?_ (ih (r.2 :: seen))
        intro s hs
        have := (dropDupAux_mem rest (r.2 :: seen) s hs).1
        simp only [List.mem_cons, not_or] at this
        exact fun he => this.1 he.symm

theorem dropDupAux_covers : ∀ (rows : List (Nat × List Cell)) (seen : List (List Cell)) r,
    r ∈ rows → r.2 ∈ seen ∨ ∃ s, s ∈ dropDupAux seen rows ∧ s.2 = r.2 := by
  intro rows
  induction rows with
  | nil => intro seen r hr; exact absurd hr (List.not_mem_nil r)
  | cons x rest ih =>
      intro seen r hr
      rcases List.mem_cons.mp hr with rfl | hr
      · by_cases h : r.2 ∈ seen
        · exact Or.inl h
        · refine Or.inr ⟨r, ?_, rfl⟩
          simp [dropDupAux, h]
      · by_cases h : x.2 ∈ seen
        · rcases ih seen r hr with hin | ⟨s, hs, he⟩
          · exact Or.inl hin
          · exact Or.inr ⟨s, by simp only [dropDupAux, h, if_true]; exact hs, he⟩
        · rcases ih (x.2 :: seen) r hr with hin | ⟨s, hs, he⟩
          · rcases List.mem_cons.mp hin with he2 | hin2
            · exact Or.inr ⟨x, by simp [dropDupAux, h], he2.symm⟩
            · exact Or.inl hin2
          · refine Or.inr ⟨s, ?_, he⟩
            simp only [dropDupAux, h, if_false, List.mem_cons]
            exact Or.inr hs

theorem enumFrom_map_fst {α : Type} : ∀ (n : Nat) (l : List α),
    (List.enumFrom n l).map Prod.fst = List.range' n l.length := by
  intro n l
  induction l generalizing n with
  | nil => rfl
  | cons x xs ih => simp [List.enumFrom, List.range', ih]

theorem enumFrom_map_snd {α : Type} : ∀ (n : Nat) (l : List α),
    (List.enumFrom n l).map Prod.snd = l := by
  intro n l
  induction l generalizing n with
  | nil => rfl
  | cons x xs ih => simp [List.enumFrom, ih]

/-- Named stage wrappers for the config-gated tail stages of the pipeline. -/
def cleanupTextStage (nfkc : String → String) (df : DataFrame) (c : Config) : DataFrame :=
  if boolFlag c "cleanup_text" true then cleanupObjectColumns nfkc df c else df

def dropDuplicatesStage (df : DataFrame) (c : Config) : DataFrame :=
  if boolFlag c "drop_duplicates" true then
    { df with rows := dropDuplicatesRows df.rows } else df

def sortRowsStage (df : DataFrame) (c : Config) : DataFrame :=
  if boolFlag c "sort_rows" true then
    (if (colNames df).isEmpty then df else { df with rows := sortRowsStable df.rows })
  else df

theorem pipeline_is_staged_composition :
    ∀ nfkc df config,
      applyDeterministicPreprocessing nfkc df config =
        resetIndex (sortRowsStage (dropDuplicatesStage (applyNullStrategy
          (coerceNumericLikeColumns (cleanupTextStage nfkc
            (normalizeUnwantedValues (normalizeColumns df) (mergeConfig config))
            (mergeConfig config)) (mergeConfig config)) (mergeConfig config))
          (mergeConfig config)) (mergeConfig config)) := by
  intro nfkc df config
  rfl

/-- C5: the pipeline is exactly the eight stages in their fixed order —
column-label normalization, sentinel nullification, per-cell text cleanup,
numeric coercion, null strategy (`keep` forced to `drop_any` under
`drop_nulls`), exact-duplicate removal keeping the first occurrence in
original row order, a stable lexicographic sort over all columns with nulls
last, and a zero-based index reset — each stage applying its effect as
enabled by the configuration. -/
theorem fixed_pipeline_order :
    (∀ nfkc df config,
      applyDeterministicPreprocessing nfkc df config =
        resetIndex (sortRowsStage (dropDuplicatesStage (applyNullStrategy
          (coerceNumericLikeColumns (cleanupTextStage nfkc
            (normalizeUnwantedValues (normalizeColumns df) (mergeConfig config))
            (mergeConfig config)) (mergeConfig config)) (mergeConfig config))
          (mergeConfig config)) (mergeConfig config))) ∧
    (∀ config, boolFlag config "drop_nulls" true = true →
      pyLower (pyStrip (pyStr (cfgGetD config "null_strategy" (.jstr "drop_any")))) = "keep" →
      effectiveNullStrategy config = "drop_any") ∧
    (∀ rows, List.Sublist (dropDuplicatesRows rows) rows) ∧
    (∀ rows, (dropDuplicatesRows rows).Pairwise (fun r s => r.2 ≠ s.2)) ∧
    (∀ rows r, r ∈ rows → ∃ s, s ∈ dropDuplicatesRows rows ∧ s.2 = r.2) ∧
    (∀ rows s, s ∈ dropDuplicatesRows rows →
      rows.find? (fun t => decide (t.2 = s.2)) = some s) ∧
    (∀ rows, List.Perm (sortRowsStable rows) rows) ∧
    (∀ rows, (sortRowsStable rows).Pairwise (fun r s => rowLe r.2 s.2 = true)) ∧
    (∀ rows a b, List.Sublist [a, b] rows → rowLe a.2 b.2 = true →
      List.Sublist [a, b] (sortRowsStable rows)) ∧
    (∀ c, cellLe c .na = true) ∧
    (∀ c, cellLe .na c = true → c = .na) ∧
    (∀ df, (resetIndex df).rows.map Prod.fst = List.range df.rows.length) ∧
    (∀ df, (resetIndex df).rows.map Prod.snd = df.rows.map (fun r => r.2)) := by
  refine ⟨pipeline_is_staged_composition, ?_, ?_, ?_, ?_, ?_, ?_, ?_, ?_, ?_, ?_, ?_, ?_⟩
  · intro config h1 h2
    simp [effectiveNullStrategy, h1, h2]
  · intro rows
    exact dropDupAux_sublist rows []
  · intro rows
    exact dropDupAux_pairwise rows []
  · intro rows r hr
    rcases dropDupAux_covers rows [] r hr with hin | hs
    · exact absurd hin (List.not_mem_nil _)
    · exact hs
  · intro rows s hs
    exact (dropDupAux_mem rows [] s hs).2
  · intro rows
    exact List.mergeSort_perm rows _
  · intro rows
    show (rows.mergeSort (fun r s => rowLe r.2 s.2)).Pairwise
      (fun r s => rowLe r.2 s.2 = true)
    exact List.sorted_mergeSort
      (fun x y z h1 h2 => rowLe_trans x.2 y.2 z.2 h1 h2)
      (fun x y => rowLe_total x.2 y.2) rows
  · intro rows a b hab hle
    show List.Sublist [a, b] (rows.mergeSort (fun r s => rowLe r.2 s.2))
    exact List.pair_sublist_mergeSort
      (fun x y z h1 h2 => rowLe_trans x.2 y.2 z.2 h1 h2)
      (fun x y => rowLe_total x.2 y.2) hle hab
  · intro c
    cases c <;> simp [cellLe, cellRank]
  · intro c h
    cases c <;> simp [cellLe, cellRank] at h ⊢
  · intro df
    show ((df.rows.map (fun r => r.2)).enumFrom 0).map Prod.fst = _
    rw [enumFrom_map_fst, List.length_map, List.range_eq_range']
  · intro df
    show ((df.rows.map (fun r => r.2)).enumFrom 0).map Prod.snd = _
    rw [enumFrom_map_snd]

def cfgKeepW : Config := [("drop_nulls", .jbool true), ("null_strategy", .jstr "keep")]

def rowsDupW : List (Nat × List Cell) := [(0, [.text "a"]), (1, [.text "a"])]

/-- Witness for C5: the staged decomposition instantiated at concrete data —
a config forcing `keep` to `drop_any`, a two-row table with duplicate values
exercising keep-first dedup, sort stability, and null ordering. -/
theorem fixed_pipeline_order_witness :
    (boolFlag cfgKeepW "drop_nulls" true = true ∧
      pyLower (pyStrip (pyStr (cfgGetD cfgKeepW "null_strategy" (.jstr "drop_any")))) = "keep" ∧
      effectiveNullStrategy cfgKeepW = "drop_any") ∧
    ((1, [Cell.text "a"]) ∈ rowsDupW ∧
      ∃ s, s ∈ dropDuplicatesRows rowsDupW ∧ s.2 = [Cell.text "a"]) ∧
    ((0, [Cell.text "a"]) ∈ dropDuplicatesRows rowsDupW ∧
      rowsDupW.find? (fun t => decide (t.2 = [Cell.text "a"])) = some (0, [Cell.text "a"])) ∧
    (List.Sublist [(0, [Cell.text "a"]), (1, [Cell.text "a"])] rowsDupW ∧
      rowLe [Cell.text "a"] [Cell.text "a"] = true ∧
      List.Sublist [(0, [Cell.text "a"]), (1, [Cell.text "a"])] (sortRowsStable rowsDupW)) ∧
    (cellLe Cell.na Cell.na = true ∧ (Cell.na : Cell) = Cell.na) := by
  have h := fixed_pipeline_order
  refine ⟨⟨by decide, by decide, h.2.1 cfgKeepW (by decide) (by decide)⟩,
    ⟨by decide, h.2.2.2.2.1 rowsDupW (1, [Cell.text "a"]) (by decide)⟩,
    ⟨by decide, h.2.2.2.2.2.1 rowsDupW (0, [Cell.text "a"]) (by decide)⟩,
    ⟨by decide, by decide,
      h.2.2.2.2.2.2.2.2.1 rowsDupW (0, [Cell.text "a"]) (1, [Cell.text "a"])
        (by decide) (by decide)⟩,
    ⟨by decide, h.2.2.2.2.2.2.2.2.2.2.1 Cell.na (by decide)⟩⟩
